import Mathlib

/-! k8-dashboard: the client-side data-synchronisation layer of `src/app.js`.

A shallow embedding of the TTL cache (`cache`, `getCachedData`, `setCachedData`),
the retrying fetcher (`fetchWithRetry`), the rolling chart buffer
(`initializeCharts`, `updateChart`), the pod status tally of
`fetchPodStatuses`, the refresh scheduler (`cleanup`, `toggleAutoRefresh`,
`manualRefresh`), the refresh cycle (`updateDashboard` and its fetchers) and
the image scan form (`handleImageScan`), followed by the theorems about them.

Conventions of the embedding:
* times (`Date.now()`, `timestamp`, `ttl`) are integers (milliseconds);
* a JavaScript value is a `JSVal`; `null` is the constructor `JSVal.null`;
  numbers are carried as integers, no arithmetic is done on them here;
* an exception is the `error` side of `Except`, carrying the message;
* the network and the clock are inputs: a script `Nat → Attempt` gives the
  outcome of the i-th network request, a `Clock` gives the wall-clock reading.
-/

namespace K8Dashboard

/-! ## Values -/

/-- JavaScript values as they come out of `response.json()`. -/
inductive JSVal where
  | null
  | bool (b : Bool)
  | num (n : Int)
  | str (s : String)
  | arr (items : List JSVal)
  | obj (fields : List (String × JSVal))

/-! ## TTL cache (app.js lines 38-61) -/

/-- One cache slot: `{ data, timestamp, ttl }`. -/
structure CacheEntry where
  data : JSVal
  timestamp : Int
  ttl : Int

/-- The `cache` object: its own properties, in declaration order. -/
abbrev Cache := List (String × CacheEntry)

/-- The object literal of lines 39-44. -/
def cache : Cache :=
  [ ("systemInfo",     { data := .null, timestamp := 0, ttl := 5000 }),
    ("namespaces",     { data := .null, timestamp := 0, ttl := 30000 }),
    ("kubernetesInfo", { data := .null, timestamp := 0, ttl := 10000 }),
    ("podStatuses",    { data := .null, timestamp := 0, ttl := 10000 }) ]

/-- Property read `cache[key]`; `none` is `undefined`. Only the own
properties of the object are modelled, not the names it inherits from
`Object.prototype`; the program reads and writes `systemInfo` only. -/
def Cache.get (c : Cache) (key : String) : Option CacheEntry :=
  match c with
  | [] => none
  | (k, e) :: rest => if k = key then some e else Cache.get rest key

/-- Property write `cache[key] = e` on an existing or a new property. -/
def Cache.put (c : Cache) (key : String) (e : CacheEntry) : Cache :=
  match c with
  | [] => [(key, e)]
  | (k, old) :: rest => if k = key then (k, e) :: rest else (k, old) :: Cache.put rest key e

/-- Lines 47-53: `now` is the value of `Date.now()`. -/
def getCachedData (c : Cache) (key : String) (now : Int) : JSVal :=
  match c.get key with
  | some cached => if now - cached.timestamp < cached.ttl then cached.data else .null
  | none => .null

/-- Lines 55-61. Reading `.ttl` of `undefined` throws a `TypeError`
before anything is assigned. -/
def setCachedData (c : Cache) (key : String) (data : JSVal) (now : Int) : Except String Cache :=
  match c.get key with
  | some old => .ok (c.put key { data := data, timestamp := now, ttl := old.ttl })
  | none => .error "TypeError: cache[key] is undefined"

/-- A call `setCachedData(key, data)` made at time `now`. -/
structure SetCall where
  key : String
  data : JSVal
  now : Int

/-- A sequence of `setCachedData` calls, stopping at the first one that throws. -/
def setCalls (c : Cache) : List SetCall → Except String Cache
  | [] => .ok c
  | s :: rest =>
    match setCachedData c s.key s.data s.now with
    | .ok c1 => setCalls c1 rest
    | .error e => .error e

/-- The last call of the sequence that wrote `key`, if there is one. -/
def lastSet (key : String) : List SetCall → Option SetCall
  | [] => none
  | s :: rest =>
    match lastSet key rest with
    | some t => some t
    | none => if s.key = key then some s else none

/-- The keys of the `cache` literal. -/
def configuredKeys : List String :=
  ["systemInfo", "namespaces", "kubernetesInfo", "podStatuses"]

/-- The call sequence never wrote `key`. -/
def neverSet (key : String) (ops : List SetCall) : Prop := lastSet key ops = none

/-- The reading of the cache contract that makes null the mark of a miss only:
after the calls `ops`, a read at `now` is null exactly when the key was never
set or its entry has expired. -/
def AbsentIffNeverSetOrExpired (ops : List SetCall) (key : String) (now : Int) : Prop :=
  ∀ c, setCalls cache ops = .ok c →
    (getCachedData c key now = .null ↔
      (neverSet key ops ∨ ∃ e, c.get key = some e ∧ now - e.timestamp ≥ e.ttl))

/-! ## Retrying fetcher (app.js lines 34-36, 79-98) -/

/-- Line 35. -/
def MAX_RETRY_ATTEMPTS : Nat := 3

/-- Line 36, in milliseconds. -/
def RETRY_DELAY : Nat := 1000

/-- What one network request does: `fetch(url, options)` and the reading of
the response body. -/
inductive Attempt where
  /-- The promise of `fetch` rejects; `message` is the message of its error. -/
  | transportError (message : String)
  /-- A response with `ok` false; `text` is the result of `response.text()`,
  `none` when that promise rejects. -/
  | httpError (status : Nat) (text : Option String)
  /-- A response with `ok` true whose `json()` rejects; `message` is the
  message of the parse error. -/
  | parseError (message : String)
  /-- A response with `ok` true whose `json()` resolves to `body`. -/
  | ok (body : JSVal)

/-- The module variable `retryAttempts` together with a trace of the effects:
how many requests were issued and which delays were handed to `setTimeout`. -/
structure FetchState where
  retryAttempts : Nat
  requests : Nat
  waits : List Nat

/-- Lines 80-87, the `try` block: the value returned, or the message of the
error thrown. The i-th request of the run gets the outcome `net i`. -/
def tryBlock (net : Nat → Attempt) (st : FetchState) : Except String JSVal × FetchState :=
  let st1 := { st with requests := st.requests + 1 }
  match net st.requests with
  | .transportError message => (.error message, st1)
  | .httpError status text =>
    (.error ("HTTP " ++ toString status ++ ": " ++ text.getD "Unknown error"), st1)
  | .parseError message => (.error message, { st1 with retryAttempts := 0 })
  | .ok body => (.ok body, { st1 with retryAttempts := 0 })

/-- Lines 79-98. The promise returned by the recursive call is returned as it
is, so its rejection is not caught again by this level. This is one call run
on its own, from start to end; `fetchWithRetryShared` below is the same call
with what the other calls of the page do to `retryAttempts` while this one
is suspended. -/
def fetchWithRetry (net : Nat → Attempt) (retries : Nat) (st : FetchState) :
    Except String JSVal × FetchState :=
  match tryBlock net st with
  | (.ok value, st1) => (.ok value, st1)
  | (.error message, st1) =>
    match retries with
    | r + 1 =>
      let st2 := { st1 with retryAttempts := st1.retryAttempts + 1 }
      let st3 := { st2 with waits := st2.waits ++ [RETRY_DELAY * st2.retryAttempts] }
      fetchWithRetry net r st3
    | 0 =>
      (.error ("Failed after " ++ toString MAX_RETRY_ATTEMPTS ++ " attempts: " ++ message), st1)

/-- The request does not end in a parsed body. -/
def Attempt.failed : Attempt → Bool
  | .ok _ => false
  | _ => true

/-- The request gets no response with `ok` true: a transport failure or a
non-2xx status. -/
def Attempt.noOkResponse : Attempt → Bool
  | .transportError _ => true
  | .httpError _ _ => true
  | _ => false

/-- The state of a freshly loaded page: `retryAttempts = 0`, nothing requested. -/
def FetchState.initial : FetchState := { retryAttempts := 0, requests := 0, waits := [] }

/-- The delays waited by one call: what it appended to the trace. -/
def callWaits (net : Nat → Attempt) (retries : Nat) (st : FetchState) : List Nat :=
  (fetchWithRetry net retries st).2.waits.drop st.waits.length

/-- A network on which every request fails at the transport level. -/
def allDown : Nat → Attempt := fun _ => .transportError "Failed to fetch"

/-- What the `try` block yields on this outcome: the parsed body, or the
message of the error it throws. -/
def Attempt.result : Attempt → Except String JSVal
  | .transportError message => .error message
  | .httpError status text =>
    .error ("HTTP " ++ toString status ++ ": " ++ text.getD "Unknown error")
  | .parseError message => .error message
  | .ok body => .ok body

/-- The value of `retryAttempts` when the `try` block is left: a response with
`ok` true has reset it, also when its body then fails to parse. -/
def Attempt.counterAfter (a : Attempt) (retryAttempts : Nat) : Nat :=
  if a.noOkResponse then retryAttempts else 0

/-- The reading of the backoff contract with a counter of its own per call:
the wait after the k-th failed attempt of the call is `RETRY_DELAY * k`. -/
def LinearBackoffPerCall (net : Nat → Attempt) (retries : Nat) (st : FetchState) : Prop :=
  ∀ k, 1 ≤ k → k ≤ (callWaits net retries st).length →
    (callWaits net retries st)[k - 1]? = some (RETRY_DELAY * k)

/-- The reading of the attempt budget as a bound on requests: a call made with
`retries = MAX_RETRY_ATTEMPTS` issues at most `MAX_RETRY_ATTEMPTS` requests. -/
def AtMostMaxAttemptsRequests (net : Nat → Attempt) (st : FetchState) : Prop :=
  (fetchWithRetry net MAX_RETRY_ATTEMPTS st).2.requests ≤ st.requests + MAX_RETRY_ATTEMPTS

/-! ## Rolling chart buffer (app.js lines 303-373, 795-817) -/

/-- What `updateChart` reads and writes of a `Chart`: `chart.data.labels` and
`chart.data.datasets[0].data`. -/
structure ChartData where
  labels : List String
  data : List JSVal

/-- The buffers given to each of the three line charts by `initializeCharts`:
`Array(10).fill("")` and `Array(10).fill(null)`. -/
def initializeCharts : ChartData :=
  { labels := List.replicate 10 "", data := List.replicate 10 .null }

/-- The reading of `new Date()` used by `updateChart`. -/
structure Clock where
  hours : Nat
  minutes : Nat
  seconds : Nat

/-- `String.prototype.padStart`. -/
def padStart (s : String) (targetLength : Nat) (padString : String) : String :=
  let n := targetLength - s.length
  ⟨((List.replicate n padString.data).flatten.take n) ++ s.data⟩

/-- Lines 799-804. -/
def timeString (now : Clock) : String :=
  padStart (toString now.hours) 2 "0" ++ ":" ++
  padStart (toString now.minutes) 2 "0" ++ ":" ++
  padStart (toString now.seconds) 2 "0"

/-- Lines 795-817; `none` is a missing chart, on which the function returns at
once. `push` appends, `shift` removes the first element if there is one. -/
def updateChart (chart : Option ChartData) (now : Clock) (newValue : JSVal) :
    Option ChartData :=
  match chart with
  | none => none
  | some c =>
    let labels := c.labels ++ [timeString now]
    let data := c.data ++ [newValue]
    if labels.length > 10 then
      some { labels := labels.tail, data := data.tail }
    else
      some { labels := labels, data := data }

/-- A sequence of `updateChart` calls on one chart. -/
def updateChartAll (chart : Option ChartData) : List (Clock × JSVal) → Option ChartData
  | [] => chart
  | (now, v) :: rest => updateChartAll (updateChart chart now v) rest

/-- The last `n` elements of a list, in their order. -/
def lastN {α : Type} (n : Nat) (l : List α) : List α := l.drop (l.length - n)

/-! ## Pod status tally (app.js lines 868-881) -/

/-- An element of the `/pods` response, as far as it is read. -/
structure Pod where
  name : String
  status : String

/-- `String.prototype.toLowerCase`, on the letters A-Z. -/
def toLowerCase (s : String) : String := ⟨s.data.map Char.toLower⟩

/-- The characters `search` occur in `s` as a contiguous block. -/
def isSubstring (search : List Char) : List Char → Bool
  | [] => search.isPrefixOf []
  | c :: cs => search.isPrefixOf (c :: cs) || isSubstring search cs

/-- `String.prototype.includes`. -/
def includes (s search : String) : Bool := isSubstring search.data s.data

/-- The three counters of lines 874-881. -/
structure PodStatusTally where
  running : Nat
  pending : Nat
  failed : Nat
deriving DecidableEq

/-- The callback of `pods.forEach` (lines 876-881) on the counters. -/
def countPod (t : PodStatusTally) (pod : Pod) : PodStatusTally :=
  let status := toLowerCase pod.status
  if includes status "running" then { t with running := t.running + 1 }
  else if includes status "pending" then { t with pending := t.pending + 1 }
  else if includes status "failed" || includes status "error" then
    { t with failed := t.failed + 1 }
  else t

/-- Lines 874-881: the counters start at zero and `forEach` visits the pods in
order. -/
def countPodStatuses (pods : List Pod) : PodStatusTally :=
  pods.foldl countPod { running := 0, pending := 0, failed := 0 }

/-- The reference definition of the tally, by category: a status is Running
when its lower-cased text contains "running", Pending when it contains
"pending" but not "running", Failed when it contains "failed" or "error" but
neither "running" nor "pending". -/
def classify (statuses : List String) : PodStatusTally :=
  { running := statuses.countP (fun s => includes (toLowerCase s) "running"),
    pending := statuses.countP (fun s =>
      includes (toLowerCase s) "pending" && !includes (toLowerCase s) "running"),
    failed := statuses.countP (fun s =>
      (includes (toLowerCase s) "failed" || includes (toLowerCase s) "error") &&
        !includes (toLowerCase s) "running" && !includes (toLowerCase s) "pending") }

/-! ## Refresh scheduler (app.js lines 31-33, 64-76, 621-648) -/

/-- The two ways the scheduler registers a callback with the browser. -/
inductive TimerKind where
  /-- `setInterval(updateDashboard, 10000)`, line 625. -/
  | interval
  /-- `setTimeout(..., 1000)` with the callback of lines 643-647. -/
  | timeout
deriving DecidableEq

/-- A timer that the browser holds for the scheduler: its handle, the time of
its next firing and the delay it was registered with (milliseconds). -/
structure Timer where
  id : Nat
  kind : TimerKind
  due : Nat
  delay : Nat
deriving DecidableEq

/-- The scheduler variables `autoRefreshInterval` and `refreshTimeout` (`none`
is `null`), with the part of the browser they act on: the clock, the handle
the next registration returns, the timers outstanding, and a count of the
calls of `updateDashboard`. The timers of notifications and of retry waits
are not scheduler timers and are left out. -/
structure Scheduler where
  now : Nat
  nextId : Nat
  timers : List Timer
  autoRefreshInterval : Option Nat
  refreshTimeout : Option Nat
  cycles : Nat
deriving DecidableEq

/-- The page after load: both handles null, nothing registered; the browser
hands out handles greater than zero. -/
def Scheduler.initial : Scheduler :=
  { now := 0, nextId := 1, timers := [], autoRefreshInterval := none,
    refreshTimeout := none, cycles := 0 }

/-- `clearInterval(id)` and `clearTimeout(id)`: the timer with that handle is
dropped, whatever its kind. -/
def clearTimer (id : Nat) (timers : List Timer) : List Timer :=
  timers.filter (fun t => t.id != id)

/-- Registration of a timer: the browser returns a fresh handle. -/
def setTimer (kind : TimerKind) (delay : Nat) (s : Scheduler) : Nat × Scheduler :=
  (s.nextId,
    { s with nextId := s.nextId + 1,
             timers := s.timers ++ [{ id := s.nextId, kind := kind, due := s.now + delay,
                                      delay := delay }] })

/-- A call of `updateDashboard`, as far as the scheduler is concerned. -/
def updateDashboardCall (s : Scheduler) : Scheduler := { s with cycles := s.cycles + 1 }

/-- Lines 64-73. A handle is truthy when it is a number other than zero. -/
def cleanup (s : Scheduler) : Scheduler :=
  let s1 :=
    match s.autoRefreshInterval with
    | some id =>
      if id ≠ 0 then { s with timers := clearTimer id s.timers, autoRefreshInterval := none }
      else s
    | none => s
  match s1.refreshTimeout with
  | some id =>
    if id ≠ 0 then { s1 with timers := clearTimer id s1.timers, refreshTimeout := none }
    else s1
  | none => s1

/-- Lines 621-630; `checked` is `autoRefreshToggle.checked`. -/
def toggleAutoRefresh (checked : Bool) (s : Scheduler) : Scheduler :=
  let s1 := cleanup s
  if checked then
    let r := setTimer .interval 10000 s1
    { r.2 with autoRefreshInterval := some r.1 }
  else s1

/-- Lines 632-648. -/
def manualRefresh (s : Scheduler) : Scheduler :=
  match s.refreshTimeout with
  | some id =>
    if id ≠ 0 then s
    else
      let r := setTimer .timeout 1000 (updateDashboardCall s)
      { r.2 with refreshTimeout := some r.1 }
  | none =>
    let r := setTimer .timeout 1000 (updateDashboardCall s)
    { r.2 with refreshTimeout := some r.1 }

/-- The browser fires a timer that is due: an interval runs `updateDashboard`
and is scheduled again one period later; a timeout runs the callback of lines
643-647, which sets `refreshTimeout = null`, and is gone. -/
def fire (s : Scheduler) (t : Timer) : Scheduler :=
  match t.kind with
  | .interval =>
    { updateDashboardCall s with
        timers := s.timers.map (fun u => if u.id = t.id then { u with due := u.due + u.delay } else u) }
  | .timeout =>
    { s with timers := clearTimer t.id s.timers, refreshTimeout := none }

/-- One millisecond passes: the timers due at the new time fire, in the order
of their registration. -/
def tick (s : Scheduler) : Scheduler :=
  let s1 := { s with now := s.now + 1 }
  (s1.timers.filter (fun t => t.due = s1.now)).foldl fire s1

/-- The clock advances by `n` milliseconds. -/
def advance : Nat → Scheduler → Scheduler
  | 0, s => s
  | n + 1, s => advance n (tick s)

/-- What can happen to the scheduler. -/
inductive Event where
  /-- The toggle is switched on: `toggleAutoRefresh` with `checked` true. -/
  | enableAuto
  /-- The toggle is switched off: `toggleAutoRefresh` with `checked` false. -/
  | disableAuto
  /-- A click on the refresh button. -/
  | manualRefresh
  /-- The page unloads: `cleanup`. -/
  | teardown
  /-- A millisecond passes, with the periodic ticks and the cooldown expiry
  that fall on it. -/
  | tick
deriving DecidableEq

/-- The effect of an event. -/
def step (s : Scheduler) : Event → Scheduler
  | .enableAuto => toggleAutoRefresh true s
  | .disableAuto => toggleAutoRefresh false s
  | .manualRefresh => manualRefresh s
  | .teardown => cleanup s
  | .tick => tick s

/-- The states the scheduler can be in: those reached from the initial state
by a sequence of events. -/
inductive Reachable : Scheduler → Prop where
  | initial : Reachable Scheduler.initial
  | step (s : Scheduler) (e : Event) : Reachable s → Reachable (step s e)

/-- The periodic timers outstanding. -/
def periodicTimers (s : Scheduler) : List Timer :=
  s.timers.filter (fun t => t.kind = .interval)

/-- The cooldown timers outstanding. -/
def cooldownTimers (s : Scheduler) : List Timer :=
  s.timers.filter (fun t => t.kind = .timeout)

/-- The shape of a scheduler state whose outstanding timers are the periodic
timer `I` and the cooldown timer `T`, where present, each recorded in its
handle. -/
def CanonWith (s : Scheduler) (I T : Option Timer) : Prop :=
  0 < s.nextId ∧
  (s.timers = I.toList ++ T.toList ∨ s.timers = T.toList ++ I.toList) ∧
  s.autoRefreshInterval = I.map (fun t => t.id) ∧
  s.refreshTimeout = T.map (fun t => t.id) ∧
  (∀ t ∈ I, t.kind = .interval ∧ 0 < t.id ∧ t.id < s.nextId ∧ s.now < t.due ∧
    t.due ≤ s.now + 10000 ∧ t.delay = 10000) ∧
  (∀ t ∈ T, t.kind = .timeout ∧ 0 < t.id ∧ t.id < s.nextId ∧ s.now < t.due ∧
    t.due ≤ s.now + 1000) ∧
  (∀ a ∈ I, ∀ b ∈ T, a.id ≠ b.id)

/-- The periodic timer after one more millisecond: scheduled one period later
when it was due. -/
def tickInterval (now : Nat) (I : Option Timer) : Option Timer :=
  match I with
  | some t => if t.due = now + 1 then some { t with due := t.due + t.delay } else some t
  | none => none

/-- The cooldown timer after one more millisecond: gone when it was due. -/
def tickTimeout (now : Nat) (T : Option Timer) : Option Timer :=
  match T with
  | some t => if t.due = now + 1 then none else some t
  | none => none

/-! ## Backoff bound of the retrying fetcher -/

/-- The sum of the waits of a call with `retries` retries that is entered with
the counter at `c` and never sees a response with `ok` true. -/
def backoffBound : Nat → Nat → Nat
  | 0, _ => 0
  | r + 1, c => RETRY_DELAY * (c + 1) + backoffBound r (c + 1)

/-- The reading of the time bound of the spec: the delays waited by a call
with the default budget add up to at most
`MAX_RETRY_ATTEMPTS * RETRY_DELAY * MAX_RETRY_ATTEMPTS`. -/
def BackoffSumWithinBudget (net : Nat → Attempt) (st : FetchState) : Prop :=
  (callWaits net MAX_RETRY_ATTEMPTS st).sum
    ≤ MAX_RETRY_ATTEMPTS * RETRY_DELAY * MAX_RETRY_ATTEMPTS

/-! ## Refresh cycle (app.js lines 29-32, 100-105, 697-715, 740-793, 819-918) -/

/-- JavaScript truthiness. -/
def JSVal.truthy : JSVal → Bool
  | .null => false
  | .bool b => b
  | .num n => n != 0
  | .str s => s != ""
  | .arr _ => true
  | .obj _ => true

/-- The test `typeof v === "object"`, which null passes too. -/
def JSVal.typeofObject : JSVal → Bool
  | .null => true
  | .arr _ => true
  | .obj _ => true
  | _ => false

/-- Property read `v.name` for the names read by the page (`cpu_percent`,
`memory_usage`, `disk_usage`, `percent`); `none` is `undefined`. -/
def JSVal.prop (v : JSVal) (name : String) : Option JSVal :=
  match v with
  | .obj fields => fields.lookup name
  | _ => none

/-- The read `v?.name`, where `v` is itself the result of a property read. -/
def optionalChain (v : Option JSVal) (name : String) : Option JSVal :=
  match v with
  | none => none
  | some .null => none
  | some w => w.prop name

/-- The state that a refresh cycle reads and writes: the cache, the retry
counter with its trace, the three line charts (`none` when the canvas is
missing), `defaultNamespace`, the pod counters shown, and the traces of the
requests sent and of the notifications shown. -/
structure Page where
  cache : Cache
  fetch : FetchState
  cpuChart : Option ChartData
  memoryChart : Option ChartData
  storageChart : Option ChartData
  defaultNamespace : String
  podTally : PodStatusTally
  requestLog : List String
  notifications : List (String × String)

/-- The page after `initializeDashboard`, before the first cycle. -/
def Page.initial : Page :=
  { cache := K8Dashboard.cache, fetch := FetchState.initial,
    cpuChart := some initializeCharts, memoryChart := some initializeCharts,
    storageChart := some initializeCharts, defaultNamespace := "default",
    podTally := { running := 0, pending := 0, failed := 0 },
    requestLog := [], notifications := [] }

/-- Lines 100-105: the error is shown as a notification of type `error`. -/
def displayError (message : String) (context : String) (p : Page) : Page :=
  let errorMessage := if message = "" then "An unexpected error occurred" else message
  { p with notifications :=
      p.notifications ++ [((if context = "" then "" else context ++ ": ") ++ errorMessage, "error")] }

/-- Lines 784-792 for one chart: it is updated when it exists and the value is
a number. -/
def updateMetricChart (chart : Option ChartData) (value : Option JSVal) (clock : Clock) :
    Option ChartData :=
  match chart, value with
  | some c, some (.num n) => updateChart (some c) clock (.num n)
  | _, _ => chart

/-- Lines 767-793, without the text of the metric cards: a field that is
missing or not a number is skipped. -/
def updateSystemInfoUI (data : JSVal) (clock : Clock) (p : Page) : Page :=
  { p with
      cpuChart := updateMetricChart p.cpuChart (data.prop "cpu_percent") clock,
      memoryChart :=
        updateMetricChart p.memoryChart (optionalChain (data.prop "memory_usage") "percent") clock,
      storageChart :=
        updateMetricChart p.storageChart (optionalChain (data.prop "disk_usage") "percent") clock }

/-- Lines 740-765. `now` is `Date.now()` at the cache read, `arrival` is
`Date.now()` when the response is stored, `clock` the wall-clock reading at
the UI update. The result is `error` with the message of the error that is
thrown again to the caller. -/
def fetchSystemInfo (net : Nat → Attempt) (now arrival : Int) (clock : Clock) (p : Page) :
    Except String Unit × Page :=
  let cachedData := getCachedData p.cache "systemInfo" now
  if cachedData.truthy then
    (.ok (), updateSystemInfoUI cachedData clock p)
  else
    let r := fetchWithRetry net MAX_RETRY_ATTEMPTS p.fetch
    let p1 := { p with fetch := r.2,
                       requestLog := p.requestLog
                         ++ List.replicate (r.2.requests - p.fetch.requests) "/system_info" }
    match r.1 with
    | .error message =>
      (.error message, displayError message "Failed to fetch system metrics" p1)
    | .ok data =>
      if !data.truthy || !data.typeofObject then
        (.error "Invalid data received from server",
          displayError "Invalid data received from server" "Failed to fetch system metrics" p1)
      else
        match setCachedData p1.cache "systemInfo" data arrival with
        | .error message =>
          (.error message, displayError message "Failed to fetch system metrics" p1)
        | .ok c => (.ok (), updateSystemInfoUI data clock { p1 with cache := c })

/-- Lines 845-866: one request; `ok` false is any failure of it. -/
def fetchKubernetesInfo (ok : Bool) (ns : String) (p : Page) : Page :=
  let p1 := { p with requestLog := p.requestLog ++ ["/kubernetes_info?namespace=" ++ ns] }
  if ok then p1
  else { p1 with notifications :=
           p1.notifications ++ [("Failed to fetch info for namespace: " ++ ns, "error")] }

/-- Lines 819-843: one request; `namespaces` is the parsed list, `none` on any
failure. -/
def fetchNamespaces (namespaces : Option (List String)) (infoOk : Bool) (p : Page) : Page :=
  let p1 := { p with requestLog := p.requestLog ++ ["/kubernetes_namespaces"] }
  match namespaces with
  | some names =>
    let p2 :=
      if names.contains p1.defaultNamespace then p1
      else
        { p1 with defaultNamespace :=
            match names.head? with
            | some first => if first = "" then "default" else first
            | none => "default" }
    fetchKubernetesInfo infoOk p2.defaultNamespace p2
  | none =>
    { p1 with notifications := p1.notifications ++ [("Failed to fetch namespaces", "error")] }

/-- Lines 868-918, with the pod selector present: one request; on a failure the
counters shown are the simulated ones and `updatePodSelector` sends the
request again. -/
def fetchPodStatuses (pods : Option (List Pod)) (simulated : PodStatusTally)
    (ns : String) (p : Page) : Page :=
  let p1 := { p with requestLog := p.requestLog ++ ["/pods?namespace=" ++ ns] }
  match pods with
  | some ps => { p1 with podTally := countPodStatuses ps }
  | none =>
    { p1 with podTally := simulated,
              requestLog := p1.requestLog ++ ["/pods?namespace=" ++ ns] }

/-- What the outside world does during one cycle. -/
structure CycleEnv where
  net : Nat → Attempt
  now : Int
  arrival : Int
  clock : Clock
  namespaces : Option (List String)
  infoOk : Bool
  pods : Option (List Pod)
  simulated : PodStatusTally

/-- Lines 697-715. The three fetches are started in this order, with
`defaultNamespace` read before any response arrives; only `fetchSystemInfo`
can reject the `Promise.all`. -/
def updateDashboard (env : CycleEnv) (p : Page) : Page :=
  let ns := p.defaultNamespace
  let r := fetchSystemInfo env.net env.now env.arrival env.clock p
  let p2 := fetchNamespaces env.namespaces env.infoOk r.2
  let p3 := fetchPodStatuses env.pods env.simulated ns p2
  match r.1 with
  | .ok _ => p3
  | .error message => displayError message "Dashboard update failed" p3

/-- The requests that a cycle adds to the trace. -/
def cycleRequests (env : CycleEnv) (p : Page) : List String :=
  (updateDashboard env p).requestLog.drop p.requestLog.length

/-- The response has the three fields that the page shows. -/
def hasExpectedFields (data : JSVal) : Bool :=
  (data.prop "cpu_percent").isSome &&
  (optionalChain (data.prop "memory_usage") "percent").isSome &&
  (optionalChain (data.prop "disk_usage") "percent").isSome

/-- The reading of the error taxonomy of the spec: a response without the
expected fields is answered by an error and is not stored. -/
def RejectsMissingFields (data : JSVal) (now arrival : Int) (clock : Clock) (p : Page) : Prop :=
  hasExpectedFields data = false →
    (∃ message, (fetchSystemInfo (fun _ => .ok data) now arrival clock p).1 = .error message) ∧
    (fetchSystemInfo (fun _ => .ok data) now arrival clock p).2.cache = p.cache

/-- A world in which every request succeeds: system info with three numbers,
one namespace, one running pod. -/
def healthyEnv (now arrival : Int) : CycleEnv :=
  { net := fun _ => .ok (.obj [("cpu_percent", .num 12),
                               ("memory_usage", .obj [("percent", .num 40)]),
                               ("disk_usage", .obj [("percent", .num 55)])]),
    now := now, arrival := arrival, clock := ⟨12, 0, 0⟩,
    namespaces := some ["default"], infoOk := true,
    pods := some [⟨"web-0", "Running"⟩],
    simulated := { running := 5, pending := 0, failed := 0 } }

/-! ## Counter of the retrying fetcher after an exhausted call -/

/-- The reading of the resource claim on the counter: a call leaves
`retryAttempts` higher by `retries` than it found it. -/
def CounterRaisedByRetries (net : Nat → Attempt) (retries : Nat) (st : FetchState) : Prop :=
  (fetchWithRetry net retries st).2.retryAttempts = st.retryAttempts + retries

/-- A network on which every request gets a response with `ok` true whose body
does not parse. -/
def allUnparsable : Nat → Attempt := fun _ => .parseError "Unexpected token <"

/-! ## Image scan form (app.js lines 497-530) -/

/-- A character class `[...]`: any one of the listed characters. -/
def charClass (cs : List Char) : RegularExpression Char :=
  cs.foldr (fun c r => .plus (.char c) r) .zero

/-- The quantifier `+`. -/
def oneOrMore (r : RegularExpression Char) : RegularExpression Char := .comp r (.star r)

/-- The quantifier `?`. -/
def optional (r : RegularExpression Char) : RegularExpression Char := .plus .epsilon r

/-- The first class of line 508, written out: the letters a-z and A-Z, the
digits, dot, underscore, slash and hyphen. -/
def repositoryChars : List Char :=
  "abcdefghijklmnopqrstuvwxyzABCDEFGHIJKLMNOPQRSTUVWXYZ0123456789./_-".data

/-- The second class of line 508, written out: the letters a-z and A-Z, the
digits, dot, underscore and hyphen. -/
def tagChars : List Char :=
  "abcdefghijklmnopqrstuvwxyzABCDEFGHIJKLMNOPQRSTUVWXYZ0123456789._-".data

/-- Line 508: one or more characters of the first class, then optionally a
colon and one or more characters of the second class. -/
def imageNamePattern : RegularExpression Char :=
  .comp (oneOrMore (charClass repositoryChars))
    (optional (.comp (.char ':') (oneOrMore (charClass tagChars))))

/-- `pattern.test(s)` for a pattern between `^` and `$` without flags: the
whole string matches. -/
def test (pattern : RegularExpression Char) (s : String) : Bool := pattern.rmatch s.data

/-- The characters that `String.prototype.trim` strips: white space and line
terminators. -/
def isTrimmedChar (c : Char) : Bool :=
  c.toNat ∈ [0x09, 0x0A, 0x0B, 0x0C, 0x0D, 0x20, 0xA0, 0x1680, 0x2028, 0x2029, 0x202F, 0x205F,
    0x3000, 0xFEFF] || (0x2000 ≤ c.toNat && c.toNat ≤ 0x200A)

/-- `String.prototype.trim`. -/
def trim (s : String) : String :=
  ⟨((s.data.dropWhile isTrimmedChar).reverse.dropWhile isTrimmedChar).reverse⟩

/-- The class of line 515: less-than, greater-than, the double quote (code 34)
and the single quote (code 39). -/
def strippedChars : List Char := ['<', '>', Char.ofNat 34, Char.ofNat 39]

/-- Line 515: every character of the class is replaced by the empty string. -/
def sanitize (s : String) : String := ⟨s.data.filter (fun c => !(strippedChars.contains c))⟩

/-- How `handleImageScan` ends: with an error notification and no scan, or
with the notification that the scan starts and the call `scanImage(imageName)`. -/
inductive ScanOutcome where
  | rejected (message : String)
  | scanning (imageName : String)
deriving DecidableEq

/-- Lines 497-530; `value` is `imageInput.value`. -/
def handleImageScan (value : String) : ScanOutcome :=
  let imageName := trim value
  if imageName = "" then
    .rejected "Please enter a Docker image name"
  else if !(test imageNamePattern imageName) then
    .rejected "Invalid image name format. Use format: repository/image:tag"
  else
    let sanitizedImageName := sanitize imageName
    if sanitizedImageName ≠ imageName then
      .rejected "Invalid characters detected in image name"
    else
      .scanning sanitizedImageName

/-- The characters that occur in a regular expression. -/
def regexChars : RegularExpression Char → List Char
  | .zero => []
  | .epsilon => []
  | .char a => [a]
  | .plus P Q => regexChars P ++ regexChars Q
  | .comp P Q => regexChars P ++ regexChars Q
  | .star P => regexChars P

/-! ## Retrying fetcher among other calls (app.js lines 34, 79-98)

`retryAttempts` is one variable of the page. A call of `fetchWithRetry` is
suspended at each `await`; while it is, the other calls that are in flight
(page load, navigation, the periodic tick, a manual refresh) run their own
increments and resets of the variable. -/

/-- What the other code of the page does to `retryAttempts` while the call is
suspended around one of its attempts: while it awaits `fetch` and
`response.text()`, while it awaits `response.json()`, and while it awaits the
timeout before the retry. -/
structure Interference where
  duringRequest : Nat → Nat
  duringParse : Nat → Nat
  duringWait : Nat → Nat

/-- No other call changes the counter around this attempt. -/
def Interference.Quiet (o : Interference) : Prop :=
  (∀ c, o.duringRequest c = c) ∧ (∀ c, o.duringParse c = c) ∧ (∀ c, o.duringWait c = c)

/-- The interference of no other call at all. -/
def noInterference : Nat → Interference := fun _ => ⟨id, id, id⟩

/-- The value of `retryAttempts` that the call finds when its `try` block is
left: after a transport failure or a non-2xx status, what the others made of
the value at the start of the attempt; after a response with `ok` true, what
they made of the 0 that line 86 has written. -/
def counterFound (a : Attempt) (o : Interference) (retryAttempts : Nat) : Nat :=
  if a.noOkResponse then o.duringRequest retryAttempts else o.duringParse 0

/-- Lines 80-87 among other calls: `others i` is what they do around the i-th
request. -/
def tryBlockShared (net : Nat → Attempt) (others : Nat → Interference) (st : FetchState) :
    Except String JSVal × FetchState :=
  let o := others st.requests
  let st1 := { st with requests := st.requests + 1,
                       retryAttempts := o.duringRequest st.retryAttempts }
  match net st.requests with
  | .transportError message => (.error message, st1)
  | .httpError status text =>
    (.error ("HTTP " ++ toString status ++ ": " ++ text.getD "Unknown error"), st1)
  | .parseError message => (.error message, { st1 with retryAttempts := o.duringParse 0 })
  | .ok body => (.ok body, { st1 with retryAttempts := o.duringParse 0 })

/-- Lines 79-98 among other calls. The increment of line 90 and the delay of
line 92 are computed without a suspension in between; the others act again
while the call waits for the timeout. -/
def fetchWithRetryShared (net : Nat → Attempt) (others : Nat → Interference) (retries : Nat)
    (st : FetchState) : Except String JSVal × FetchState :=
  match tryBlockShared net others st with
  | (.ok value, st1) => (.ok value, st1)
  | (.error message, st1) =>
    match retries with
    | r + 1 =>
      let st2 := { st1 with retryAttempts := st1.retryAttempts + 1 }
      let st3 := { st2 with waits := st2.waits ++ [RETRY_DELAY * st2.retryAttempts] }
      let st4 := { st3 with
        retryAttempts := (others st.requests).duringWait st3.retryAttempts }
      fetchWithRetryShared net others r st4
    | 0 =>
      (.error ("Failed after " ++ toString MAX_RETRY_ATTEMPTS ++ " attempts: " ++ message), st1)

/-- The delays waited by one call among other calls. -/
def callWaitsShared (net : Nat → Attempt) (others : Nat → Interference) (retries : Nat)
    (st : FetchState) : List Nat :=
  (fetchWithRetryShared net others retries st).2.waits.drop st.waits.length

/-- The other calls raise the counter by at most `e` during each suspension of
the call around this attempt (they may also lower it, by a reset). -/
def Interference.RaisesAtMost (o : Interference) (e : Nat) : Prop :=
  ∀ c, o.duringRequest c ≤ c + e ∧ o.duringParse c ≤ c + e ∧ o.duringWait c ≤ c + e

/-- The bound on the sum of the waits of a call with `retries` retries that is
entered with the counter at `c`, among calls that raise the counter by at
most `e` during each of its suspensions. -/
def backoffBoundShared : Nat → Nat → Nat → Nat
  | 0, _, _ => 0
  | r + 1, c, e => RETRY_DELAY * (c + e + 1) + backoffBoundShared r (c + 2 * e + 1) e

/-- A second failing call that overlaps this one: it increments the counter
once during each wait of this call. -/
def overlappingCall : Nat → Interference := fun _ => ⟨id, id, fun c => c + 1⟩

/-! ## Theorems: TTL cache -/

theorem Cache.get_put (c : Cache) (key : String) (e : CacheEntry) (k : String) :
    (Cache.put c key e).get k = if key = k then some e else c.get k := by
  induction c with
  | nil => simp [Cache.put, Cache.get]
  | cons hd tl ih =>
    obtain ⟨k0, e0⟩ := hd
    by_cases h1 : k0 = key
    · subst h1
      by_cases h2 : k0 = k <;> simp [Cache.put, Cache.get, h2]
    · by_cases h2 : k0 = k
      · subst h2
        have h3 : ¬ key = k0 := fun h => h1 h.symm
        simp [Cache.put, Cache.get, h1, h3]
      · simp [Cache.put, Cache.get, h1, h2, ih]

theorem setCachedData_get (c c1 : Cache) (key : String) (v : JSVal) (now : Int)
    (h : setCachedData c key v now = .ok c1) (k : String) :
    c1.get k = if key = k then (c.get key).map (fun old => ⟨v, now, old.ttl⟩) else c.get k := by
  unfold setCachedData at h
  cases hg : c.get key with
  | none => simp [hg] at h
  | some old =>
    simp only [hg, Except.ok.injEq] at h
    subst h
    simp [Cache.get_put]

theorem setCalls_get (ops : List SetCall) : ∀ (c0 c : Cache) (key : String),
    setCalls c0 ops = .ok c →
    c.get key = match lastSet key ops with
      | some s => (c0.get key).map (fun old => ⟨s.data, s.now, old.ttl⟩)
      | none => c0.get key := by
  induction ops with
  | nil => intro c0 c key h; simp [setCalls] at h; subst h; simp [lastSet]
  | cons s rest ih =>
    intro c0 c key h
    simp only [setCalls] at h
    cases h1 : setCachedData c0 s.key s.data s.now with
    | error e => simp [h1] at h
    | ok c1 =>
      simp only [h1] at h
      have hrest := ih c1 c key h
      have hstep := setCachedData_get c0 c1 s.key s.data s.now h1 key
      rw [hrest]
      simp only [lastSet]
      cases hl : lastSet key rest with
      | some t =>
        simp only [hstep]
        by_cases hk : s.key = key
        · subst hk
          cases hg : c0.get s.key <;> simp
        · simp [hk]
      | none =>
        simp only [hstep]
        by_cases hk : s.key = key
        · simp [hk]
        · simp [hk]

theorem setCalls_lastSet_configured (ops : List SetCall) : ∀ (c0 c : Cache) (key : String)
    (s : SetCall), setCalls c0 ops = .ok c → lastSet key ops = some s →
    c0.get key = none → False := by
  induction ops with
  | nil => intro c0 c key s _ hl; simp [lastSet] at hl
  | cons a rest ih =>
    intro c0 c key s h hl h0
    simp only [setCalls] at h
    cases h1 : setCachedData c0 a.key a.data a.now with
    | error e => simp [h1] at h
    | ok c1 =>
      simp only [h1] at h
      have hstep := setCachedData_get c0 c1 a.key a.data a.now h1 key
      by_cases hk : a.key = key
      · subst hk
        unfold setCachedData at h1
        simp [h0] at h1
      · simp only [lastSet] at hl
        cases hr : lastSet key rest with
        | none => simp [hr, hk] at hl
        | some t =>
          apply ih c1 c key t h hr
          rw [hstep]
          simp [hk, h0]

theorem setCalls_ttl_aux (ops : List SetCall) : ∀ (c0 c : Cache),
    setCalls c0 ops = .ok c →
    ∀ k, (c.get k).map (fun e => e.ttl) = (c0.get k).map (fun e => e.ttl) := by
  induction ops with
  | nil => intro c0 c h k; simp [setCalls] at h; subst h; rfl
  | cons a rest ih =>
    intro c0 c h k
    simp only [setCalls] at h
    cases h1 : setCachedData c0 a.key a.data a.now with
    | error e => simp [h1] at h
    | ok c1 =>
      simp only [h1] at h
      rw [ih c1 c h k, setCachedData_get c0 c1 a.key a.data a.now h1 k]
      by_cases hk : a.key = k
      · subst hk
        cases hg : c0.get a.key <;> simp
      · simp [hk]

theorem setCalls_configured_ok (ops : List SetCall) : ∀ (c0 : Cache),
    (∀ s ∈ ops, ∃ e, c0.get s.key = some e) → ∃ c, setCalls c0 ops = .ok c := by
  induction ops with
  | nil => intro c0 _; exact ⟨c0, rfl⟩
  | cons a rest ih =>
    intro c0 h
    obtain ⟨e, he⟩ := h a (List.mem_cons_self _ _)
    have h1 : setCachedData c0 a.key a.data a.now
        = .ok (c0.put a.key ⟨a.data, a.now, e.ttl⟩) := by
      simp [setCachedData, he]
    simp only [setCalls, h1]
    apply ih
    intro s hs
    obtain ⟨e2, he2⟩ := h s (List.mem_cons_of_mem _ hs)
    rw [Cache.get_put]
    by_cases hk : a.key = s.key
    · simp [hk]
    · simp [hk, he2]

theorem configured_get (key : String) (h : key ∈ configuredKeys) :
    ∃ e, cache.get key = some e := by
  simp only [configuredKeys, List.mem_cons, List.mem_singleton, List.not_mem_nil, or_false] at h
  rcases h with h | h | h | h <;> subst h <;> simp [cache, Cache.get]

/-- C1, the claim as stated, fails: after `setCachedData("systemInfo", null)` at
time 100 a read at time 200 returns null although the key was set and its
entry (ttl 5000) has not expired. -/
theorem getCachedData_null_value_counterexample :
    ¬ AbsentIffNeverSetOrExpired [⟨"systemInfo", .null, 100⟩] "systemInfo" 200 := by
  intro h
  have h1 := h (cache.put "systemInfo" ⟨.null, 100, 5000⟩) (by rfl)
  have h2 : getCachedData (cache.put "systemInfo" ⟨.null, 100, 5000⟩) "systemInfo" 200 = .null := by
    simp [getCachedData, cache, Cache.put, Cache.get]
  rcases h1.mp h2 with h3 | ⟨e, he, hexp⟩
  · simp [neverSet, lastSet] at h3
  · simp [cache, Cache.put, Cache.get] at he
    subst he
    simp at hexp

/-- C1 (amended): after any sequence of successful `setCachedData` calls on the
initial cache, a key that was never set reads as null; a key that was set has
an entry holding the data and the time of its last set, which reads as null
when `now - timestamp >= ttl` and as the value last set otherwise; so the read
is null exactly when the key was never set, or its entry has expired, or the
value last set is itself null. -/
theorem getCachedData_spec (ops : List SetCall) (c : Cache) (key : String) (now : Int)
    (h : setCalls cache ops = .ok c) :
    (neverSet key ops → getCachedData c key now = .null) ∧
    (∀ s, lastSet key ops = some s →
      ∃ e, c.get key = some e ∧ e.data = s.data ∧ e.timestamp = s.now ∧
        (now - e.timestamp ≥ e.ttl → getCachedData c key now = .null) ∧
        (now - e.timestamp < e.ttl → getCachedData c key now = s.data)) ∧
    (getCachedData c key now = .null ↔
      (neverSet key ops ∨
        ∃ e, c.get key = some e ∧ (now - e.timestamp ≥ e.ttl ∨ e.data = .null))) := by
  have hget := setCalls_get ops cache c key h
  have hinit : ∀ e0, cache.get key = some e0 → e0.data = .null := by
    intro e0 he0
    simp only [cache, Cache.get] at he0
    split_ifs at he0 <;> (injection he0 with he0; subst he0; rfl)
  have hnever : neverSet key ops → getCachedData c key now = .null := by
    intro hn
    unfold neverSet at hn
    rw [hn] at hget
    simp only at hget
    unfold getCachedData
    rw [hget]
    cases h0 : cache.get key with
    | none => rfl
    | some e0 =>
      simp only [hinit e0 h0]
      split_ifs <;> rfl
  have hset : ∀ s, lastSet key ops = some s →
      ∃ e, c.get key = some e ∧ e.data = s.data ∧ e.timestamp = s.now ∧
        (now - e.timestamp ≥ e.ttl → getCachedData c key now = .null) ∧
        (now - e.timestamp < e.ttl → getCachedData c key now = s.data) := by
    intro s hs
    rw [hs] at hget
    simp only at hget
    cases h0 : cache.get key with
    | none =>
      exfalso
      -- the last set of an unconfigured key would have thrown
      rw [h0] at hget
      simp only [Option.map_none'] at hget
      exact setCalls_lastSet_configured ops cache c key s h hs h0
    | some e0 =>
      rw [h0] at hget
      simp only [Option.map_some'] at hget
      refine ⟨_, hget, rfl, rfl, ?_, ?_⟩
      · intro hexp
        simp only [getCachedData, hget]
        rw [if_neg (by simpa using hexp)]
      · intro hfresh
        simp only [getCachedData, hget]
        rw [if_pos hfresh]
  refine ⟨hnever, hset, ?_⟩
  constructor
  · intro hnull
    cases hl : lastSet key ops with
    | none => exact Or.inl hl
    | some s =>
      right
      obtain ⟨e, he, hd, _, _, hfresh⟩ := hset s hl
      refine ⟨e, he, ?_⟩
      by_cases hx : now - e.timestamp < e.ttl
      · right
        rw [hd, ← hfresh hx, hnull]
      · left
        exact not_lt.mp hx
  · rintro (hn | ⟨e, he, hexp | hd⟩)
    · exact hnever hn
    · simp only [getCachedData, he]
      rw [if_neg (by simpa using hexp)]
    · simp only [getCachedData, he, hd]
      split_ifs <;> rfl

/-- C1 (amended), at a concrete run: 42 stored at time 100 is read back at time
200 and the entry records the set. -/
theorem getCachedData_spec_witness :
    setCalls cache [⟨"systemInfo", .num 42, 100⟩]
        = .ok (cache.put "systemInfo" ⟨.num 42, 100, 5000⟩) ∧
    getCachedData (cache.put "systemInfo" ⟨.num 42, 100, 5000⟩) "systemInfo" 200 = .num 42 :=
  ⟨by rfl,
   by
    obtain ⟨e, hc, _, ht, _, hfresh⟩ :=
      (getCachedData_spec [⟨"systemInfo", .num 42, 100⟩]
        (cache.put "systemInfo" ⟨.num 42, 100, 5000⟩) "systemInfo" 200 (by rfl)).2.1
        ⟨"systemInfo", .num 42, 100⟩ (by simp [lastSet])
    exact hfresh (by
      have he : e.ttl = 5000 := by
        simp [cache, Cache.put, Cache.get] at hc
        subst hc
        rfl
      rw [ht, he]
      norm_num)⟩

/-- C2: every sequence of `setCachedData` calls on configured keys succeeds and
leaves each key with the ttl it had at construction; on the cache so reached,
a further `setCachedData(key, value)` at time `now` on a configured key
succeeds and leaves that key with data = value, timestamp = now and its
construction-time ttl. -/
theorem setCachedData_preserves_ttl (ops : List SetCall)
    (hops : ∀ s ∈ ops, s.key ∈ configuredKeys) :
    ∃ c, setCalls cache ops = .ok c ∧
      (∀ k, (c.get k).map (fun e => e.ttl) = (cache.get k).map (fun e => e.ttl)) ∧
      ∀ key ∈ configuredKeys, ∀ (value : JSVal) (now : Int),
        ∃ c1 e0, setCachedData c key value now = .ok c1 ∧ cache.get key = some e0 ∧
          c1.get key = some { data := value, timestamp := now, ttl := e0.ttl } := by
  obtain ⟨c, hc⟩ := setCalls_configured_ok ops cache
    (fun s hs => configured_get s.key (hops s hs))
  refine ⟨c, hc, setCalls_ttl_aux ops cache c hc, ?_⟩
  intro key hkey value now
  obtain ⟨e0, he0⟩ := configured_get key hkey
  have httl := setCalls_ttl_aux ops cache c hc key
  rw [he0] at httl
  cases hg : c.get key with
  | none => simp [hg] at httl
  | some old =>
    simp only [hg, Option.map_some', Option.some.injEq] at httl
    refine ⟨c.put key ⟨value, now, old.ttl⟩, e0, ?_, he0, ?_⟩
    · simp [setCachedData, hg]
    · rw [Cache.get_put, if_pos rfl, httl]

/-- C2 at a concrete run: two sets of `systemInfo` and one of `namespaces`. -/
theorem setCachedData_preserves_ttl_witness :
    ∃ c, setCalls cache [⟨"systemInfo", .num 1, 10⟩, ⟨"namespaces", .null, 20⟩,
        ⟨"systemInfo", .num 2, 30⟩] = .ok c ∧
      (c.get "systemInfo").map (fun e => e.ttl) = some 5000 := by
  obtain ⟨c, hc, httl, _⟩ := setCachedData_preserves_ttl
    [⟨"systemInfo", .num 1, 10⟩, ⟨"namespaces", .null, 20⟩, ⟨"systemInfo", .num 2, 30⟩]
    (by simp [configuredKeys])
  exact ⟨c, hc, by rw [httl]; rfl⟩

/-! ## Theorems: retrying fetcher -/

theorem tryBlock_fst (net : Nat → Attempt) (st : FetchState) :
    (tryBlock net st).1 = (net st.requests).result := by
  unfold tryBlock
  cases net st.requests <;> rfl

theorem tryBlock_snd (net : Nat → Attempt) (st : FetchState) :
    (tryBlock net st).2 =
      ⟨if (net st.requests).noOkResponse then st.retryAttempts else 0,
        st.requests + 1, st.waits⟩ := by
  unfold tryBlock
  cases net st.requests <;> rfl

theorem failed_result (a : Attempt) (h : a.failed = true) : ∃ m, a.result = .error m := by
  cases a with
  | ok b => simp [Attempt.failed] at h
  | transportError m => exact ⟨_, rfl⟩
  | httpError s t => exact ⟨_, rfl⟩
  | parseError m => exact ⟨_, rfl⟩

theorem toString_max : toString MAX_RETRY_ATTEMPTS = "3" := by rfl

/-- A successful attempt ends the call. -/
theorem fetchWithRetry_ok (net : Nat → Attempt) (retries : Nat) (st : FetchState)
    (body : JSVal) (h : net st.requests = .ok body) :
    fetchWithRetry net retries st = (.ok body, ⟨0, st.requests + 1, st.waits⟩) := by
  have h1 : tryBlock net st = (.ok body, ⟨0, st.requests + 1, st.waits⟩) := by
    simp [tryBlock, h]
  cases retries <;> simp [fetchWithRetry, h1]

/-- A failed attempt with retries left: wait, then recurse with one retry less. -/
theorem fetchWithRetry_retry (net : Nat → Attempt) (r : Nat) (st : FetchState)
    (m : String) (h : (net st.requests).result = .error m) :
    fetchWithRetry net (r + 1) st =
      fetchWithRetry net r
        ⟨(net st.requests).counterAfter st.retryAttempts + 1, st.requests + 1,
          st.waits ++ [RETRY_DELAY * ((net st.requests).counterAfter st.retryAttempts + 1)]⟩ := by
  have h1 := tryBlock_fst net st
  have h2 := tryBlock_snd net st
  rw [h] at h1
  rw [fetchWithRetry]
  rcases hb : tryBlock net st with ⟨res, st1⟩
  rw [hb] at h1 h2
  simp only at h1 h2
  subst h1
  subst h2
  simp [Attempt.counterAfter]

/-- A failed attempt with no retry left: the aggregated error is thrown. -/
theorem fetchWithRetry_exhausted (net : Nat → Attempt) (st : FetchState)
    (m : String) (h : (net st.requests).result = .error m) :
    fetchWithRetry net 0 st =
      (.error ("Failed after 3 attempts: " ++ m),
        ⟨(net st.requests).counterAfter st.retryAttempts, st.requests + 1, st.waits⟩) := by
  have h1 := tryBlock_fst net st
  have h2 := tryBlock_snd net st
  rw [h] at h1
  rw [fetchWithRetry]
  rcases hb : tryBlock net st with ⟨res, st1⟩
  rw [hb] at h1 h2
  simp only at h1 h2
  subst h1
  subst h2
  simp only [toString_max, Attempt.counterAfter]
  rfl

/-- When the first `k` attempts get no parsed body and `k ≤ retries`, the call
continues as a call with `retries - k` retries; the request count has grown by
`k` and `k` delays were appended to the trace. -/
theorem fetchWithRetry_after_failures (net : Nat → Attempt) (k : Nat) :
    ∀ (retries : Nat) (st : FetchState), k ≤ retries →
      (∀ i, i < k → (net (st.requests + i)).failed = true) →
      ∃ c l, l.length = k ∧
        fetchWithRetry net retries st =
          fetchWithRetry net (retries - k) ⟨c, st.requests + k, st.waits ++ l⟩ := by
  induction k with
  | zero =>
    intro retries st _ _
    exact ⟨st.retryAttempts, [], rfl, by simp⟩
  | succ k ih =>
    intro retries st hk hfail
    obtain ⟨r, rfl⟩ : ∃ r, retries = r + 1 := ⟨retries - 1, by omega⟩
    obtain ⟨m, hm⟩ := failed_result _ (hfail 0 (by omega))
    rw [Nat.add_zero] at hm
    rw [fetchWithRetry_retry net r st m hm]
    obtain ⟨c, l, hl, heq⟩ := ih r
      ⟨(net st.requests).counterAfter st.retryAttempts + 1, st.requests + 1,
        st.waits ++ [RETRY_DELAY * ((net st.requests).counterAfter st.retryAttempts + 1)]⟩
      (by omega)
      (fun i hi => by
        have := hfail (i + 1) (by omega)
        simpa [Nat.add_assoc, Nat.add_comm 1 i] using this)
    refine ⟨c, RETRY_DELAY * ((net st.requests).counterAfter st.retryAttempts + 1) :: l,
      by simp [hl], ?_⟩
    rw [heq]
    simp [Nat.add_assoc, Nat.add_comm 1 k]

/-- When every attempt of the call fails, it issues `retries + 1` requests,
waits `retries` times and throws the aggregated error built from the message
of the last attempt. -/
theorem fetchWithRetry_all_failed (net : Nat → Attempt) (retries : Nat) (st : FetchState)
    (hfail : ∀ i, i ≤ retries → (net (st.requests + i)).failed = true)
    (m : String) (hm : (net (st.requests + retries)).result = .error m) :
    (fetchWithRetry net retries st).1 = .error ("Failed after 3 attempts: " ++ m) ∧
    (fetchWithRetry net retries st).2.requests = st.requests + retries + 1 ∧
    (fetchWithRetry net retries st).2.waits.length = st.waits.length + retries := by
  obtain ⟨c, l, hl, heq⟩ := fetchWithRetry_after_failures net retries retries st
    (le_refl _) (fun i hi => hfail i (by omega))
  rw [heq, Nat.sub_self]
  rw [fetchWithRetry_exhausted net ⟨c, st.requests + retries, st.waits ++ l⟩ m hm]
  simp [hl]

/-- C3: when the first `k` attempts of a call fail (`k ≤ retries`, so every
`k < 3` for the default `retries = 3`) and attempt `k + 1` gets a response
with `ok` true and a parsable body, the call returns exactly that parsed body
and `retryAttempts` is zero afterwards. -/
theorem fetchWithRetry_success_after_failures (net : Nat → Attempt) (retries k : Nat)
    (st : FetchState) (body : JSVal) (hk : k ≤ retries)
    (hfail : ∀ i, i < k → (net (st.requests + i)).failed = true)
    (hok : net (st.requests + k) = .ok body) :
    (fetchWithRetry net retries st).1 = .ok body ∧
    (fetchWithRetry net retries st).2.retryAttempts = 0 := by
  obtain ⟨c, l, _, heq⟩ := fetchWithRetry_after_failures net k retries st hk hfail
  rw [heq, fetchWithRetry_ok net (retries - k) ⟨c, st.requests + k, st.waits ++ l⟩ body hok]
  exact ⟨rfl, rfl⟩

/-- C3 at the run of the spec: two failures, then a body, with the default
`retries = 3` and the counter left at 5 by earlier calls. -/
theorem fetchWithRetry_success_after_failures_witness :
    (fetchWithRetry
        (fun i => if i < 2 then .transportError "Failed to fetch" else .ok (.num 7))
        MAX_RETRY_ATTEMPTS ⟨5, 0, []⟩).1 = .ok (.num 7) ∧
    (fetchWithRetry
        (fun i => if i < 2 then .transportError "Failed to fetch" else .ok (.num 7))
        MAX_RETRY_ATTEMPTS ⟨5, 0, []⟩).2.retryAttempts = 0 :=
  fetchWithRetry_success_after_failures
    (fun i => if i < 2 then .transportError "Failed to fetch" else .ok (.num 7))
    MAX_RETRY_ATTEMPTS 2 ⟨5, 0, []⟩ (.num 7) (by decide)
    (fun i hi => by
      have h2 : 0 + i < 2 := by simpa using hi
      simp only [h2, if_true]
      rfl)
    (by rfl)

/-- C4, the claim as stated, fails: on a network that is down, a call with the
default `retries = MAX_RETRY_ATTEMPTS = 3` from the initial state issues 4
requests, one more than 3. -/
theorem fetchWithRetry_four_requests_counterexample :
    (fetchWithRetry allDown MAX_RETRY_ATTEMPTS FetchState.initial).2.requests = 4 ∧
    ¬ AtMostMaxAttemptsRequests allDown FetchState.initial := by
  constructor
  · decide
  · unfold AtMostMaxAttemptsRequests
    decide

/-- C4 (amended): with the default `retries = MAX_RETRY_ATTEMPTS = 3`, a call
whose attempts all fail issues exactly 4 requests (the first attempt and 3
retries) with 3 waits between them, and throws when the 4th has failed. -/
theorem fetchWithRetry_default_exhaustion (net : Nat → Attempt) (st : FetchState)
    (hfail : ∀ i, i ≤ MAX_RETRY_ATTEMPTS → (net (st.requests + i)).failed = true) :
    (∃ m, (fetchWithRetry net MAX_RETRY_ATTEMPTS st).1 = .error m) ∧
    (fetchWithRetry net MAX_RETRY_ATTEMPTS st).2.requests = st.requests + 4 ∧
    (callWaits net MAX_RETRY_ATTEMPTS st).length = 3 := by
  obtain ⟨m, hm⟩ := failed_result _ (hfail MAX_RETRY_ATTEMPTS (le_refl _))
  obtain ⟨h1, h2, h3⟩ := fetchWithRetry_all_failed net MAX_RETRY_ATTEMPTS st hfail m hm
  refine ⟨⟨_, h1⟩, ?_, ?_⟩
  · rw [h2]; rfl
  · unfold callWaits
    rw [List.length_drop, h3]
    simp [MAX_RETRY_ATTEMPTS]

/-- C4 (amended) on a network that is down. -/
theorem fetchWithRetry_default_exhaustion_witness :
    (∃ m, (fetchWithRetry allDown MAX_RETRY_ATTEMPTS FetchState.initial).1 = .error m) ∧
    (fetchWithRetry allDown MAX_RETRY_ATTEMPTS FetchState.initial).2.requests
      = FetchState.initial.requests + 4 ∧
    (callWaits allDown MAX_RETRY_ATTEMPTS FetchState.initial).length = 3 :=
  fetchWithRetry_default_exhaustion allDown FetchState.initial (fun _ _ => rfl)

/-- C5: when every attempt of a call fails, the error thrown to the caller has
the message "Failed after 3 attempts: " followed by the unchanged message of
the error of the last attempt: one prefix, whatever the number of recursion
levels. -/
theorem fetchWithRetry_single_aggregated_error (net : Nat → Attempt) (retries : Nat)
    (st : FetchState) (message : String)
    (hfail : ∀ i, i ≤ retries → (net (st.requests + i)).failed = true)
    (hlast : (net (st.requests + retries)).result = .error message) :
    (fetchWithRetry net retries st).1 = .error ("Failed after 3 attempts: " ++ message) :=
  (fetchWithRetry_all_failed net retries st hfail message hlast).1

/-- C5 on a network that answers 503 three times and is then unreachable. -/
theorem fetchWithRetry_single_aggregated_error_witness :
    (fetchWithRetry
        (fun i => if i < 3 then .httpError 503 none else .transportError "Failed to fetch")
        MAX_RETRY_ATTEMPTS FetchState.initial).1
      = .error "Failed after 3 attempts: Failed to fetch" :=
  fetchWithRetry_single_aggregated_error
    (fun i => if i < 3 then .httpError 503 none else .transportError "Failed to fetch")
    MAX_RETRY_ATTEMPTS FetchState.initial "Failed to fetch"
    (fun i _ => by
      simp only [FetchState.initial, Nat.zero_add]
      split_ifs <;> rfl)
    (by rfl)

theorem result_ok (a : Attempt) (body : JSVal) (h : a.result = .ok body) : a = .ok body := by
  cases a <;> simp_all [Attempt.result]

/-- The trace of delays only grows. -/
theorem fetchWithRetry_waits_extend (net : Nat → Attempt) (retries : Nat) :
    ∀ st : FetchState, ∃ l, (fetchWithRetry net retries st).2.waits = st.waits ++ l := by
  induction retries with
  | zero =>
    intro st
    cases hr : (net st.requests).result with
    | ok body =>
      rw [fetchWithRetry_ok net 0 st body (result_ok _ _ hr)]
      exact ⟨[], by simp⟩
    | error m =>
      rw [fetchWithRetry_exhausted net st m hr]
      exact ⟨[], by simp⟩
  | succ r ih =>
    intro st
    cases hr : (net st.requests).result with
    | ok body =>
      rw [fetchWithRetry_ok net (r + 1) st body (result_ok _ _ hr)]
      exact ⟨[], by simp⟩
    | error m =>
      rw [fetchWithRetry_retry net r st m hr]
      obtain ⟨l, hl⟩ := ih ⟨(net st.requests).counterAfter st.retryAttempts + 1,
        st.requests + 1,
        st.waits ++ [RETRY_DELAY * ((net st.requests).counterAfter st.retryAttempts + 1)]⟩
      rw [hl]
      exact ⟨RETRY_DELAY * ((net st.requests).counterAfter st.retryAttempts + 1) :: l, by simp⟩

/-- While no response with `ok` true arrives, the shared counter goes up by one
per failure and each wait is `RETRY_DELAY` times the counter. -/
theorem fetchWithRetry_after_no_response (net : Nat → Attempt) (k : Nat) :
    ∀ (retries : Nat) (st : FetchState), k ≤ retries →
      (∀ i, i < k → (net (st.requests + i)).noOkResponse = true) →
      fetchWithRetry net retries st =
        fetchWithRetry net (retries - k)
          ⟨st.retryAttempts + k, st.requests + k,
            st.waits ++ (List.range k).map (fun j => RETRY_DELAY * (st.retryAttempts + j + 1))⟩ := by
  induction k with
  | zero => intro retries st _ _; simp
  | succ k ih =>
    intro retries st hk hfail
    obtain ⟨r, rfl⟩ : ∃ r, retries = r + 1 := ⟨retries - 1, by omega⟩
    have h0 : (net st.requests).noOkResponse = true := by
      have := hfail 0 (by omega)
      simpa using this
    have hf : (net st.requests).failed = true := by
      cases hn : net st.requests <;> simp_all [Attempt.noOkResponse, Attempt.failed]
    obtain ⟨m, hm⟩ := failed_result _ hf
    rw [fetchWithRetry_retry net r st m hm]
    have hc : (net st.requests).counterAfter st.retryAttempts = st.retryAttempts := by
      simp [Attempt.counterAfter, h0]
    rw [hc]
    rw [ih r ⟨st.retryAttempts + 1, st.requests + 1,
        st.waits ++ [RETRY_DELAY * (st.retryAttempts + 1)]⟩ (by omega)
      (fun i hi => by
        have := hfail (i + 1) (by omega)
        simpa [Nat.add_assoc, Nat.add_comm 1 i] using this)]
    have hrange : (List.range (k + 1)).map (fun j => RETRY_DELAY * (st.retryAttempts + j + 1))
        = RETRY_DELAY * (st.retryAttempts + 1)
          :: (List.range k).map (fun j => RETRY_DELAY * (st.retryAttempts + 1 + j + 1)) := by
      rw [List.range_succ_eq_map, List.map_cons, List.map_map]
      simp only [Nat.add_zero, List.cons.injEq, true_and]
      apply List.map_congr_left
      intro j _
      simp only [Function.comp, Nat.succ_eq_add_one]
      congr 2
      omega
    rw [hrange]
    simp [Nat.add_assoc, Nat.add_comm 1 k]

/-- C6, the claim as stated, fails: `retryAttempts` is one variable shared by
all calls and an exhausted call leaves it at 3, so in the next call on a
network that is still down the waits are 4000, 5000 and 6000 ms and not
1000, 2000 and 3000 ms. -/
theorem backoff_counter_carried_over_counterexample :
    callWaits allDown MAX_RETRY_ATTEMPTS
        (fetchWithRetry allDown MAX_RETRY_ATTEMPTS FetchState.initial).2 = [4000, 5000, 6000] ∧
    ¬ LinearBackoffPerCall allDown MAX_RETRY_ATTEMPTS
        (fetchWithRetry allDown MAX_RETRY_ATTEMPTS FetchState.initial).2 := by
  have h : callWaits allDown MAX_RETRY_ATTEMPTS
      (fetchWithRetry allDown MAX_RETRY_ATTEMPTS FetchState.initial).2 = [4000, 5000, 6000] := by
    decide
  refine ⟨h, ?_⟩
  intro hlin
  have h1 := hlin 1 (le_refl _) (by rw [h]; decide)
  rw [h] at h1
  revert h1
  decide

/-- A value returned by the call is the parsed body of one of its requests. -/
theorem fetchWithRetry_value_is_parsed_body (net : Nat → Attempt) (retries : Nat) :
    ∀ (st : FetchState) (value : JSVal), (fetchWithRetry net retries st).1 = .ok value →
      ∃ i, st.requests ≤ i ∧ i ≤ st.requests + retries ∧ net i = .ok value := by
  induction retries with
  | zero =>
    intro st value h
    cases hr : (net st.requests).result with
    | ok body =>
      rw [fetchWithRetry_ok net 0 st body (result_ok _ _ hr)] at h
      simp only [Except.ok.injEq] at h
      subst h
      exact ⟨st.requests, le_refl _, by omega, result_ok _ _ hr⟩
    | error m =>
      rw [fetchWithRetry_exhausted net st m hr] at h
      simp at h
  | succ r ih =>
    intro st value h
    cases hr : (net st.requests).result with
    | ok body =>
      rw [fetchWithRetry_ok net (r + 1) st body (result_ok _ _ hr)] at h
      simp only [Except.ok.injEq] at h
      subst h
      exact ⟨st.requests, le_refl _, by omega, result_ok _ _ hr⟩
    | error m =>
      rw [fetchWithRetry_retry net r st m hr] at h
      obtain ⟨i, h1, h2, h3⟩ := ih _ value h
      simp only at h1 h2
      exact ⟨i, by omega, by omega, h3⟩

/-- The outcome of a call and the number of its requests depend only on what
the `try` block yields at each request, not on the counter or the trace. -/
theorem fetchWithRetry_outcome_congr (net net2 : Nat → Attempt) (retries : Nat) :
    ∀ (st st2 : FetchState), st.requests = st2.requests →
      (∀ i, st.requests ≤ i → (net i).result = (net2 i).result) →
      (fetchWithRetry net retries st).1 = (fetchWithRetry net2 retries st2).1 ∧
      (fetchWithRetry net retries st).2.requests
        = (fetchWithRetry net2 retries st2).2.requests := by
  induction retries with
  | zero =>
    intro st st2 hreq hnet
    have h2 := hnet st.requests (le_refl _)
    cases hr : (net st.requests).result with
    | ok body =>
      rw [hr] at h2
      rw [fetchWithRetry_ok net 0 st body (result_ok _ _ hr),
        fetchWithRetry_ok net2 0 st2 body (result_ok _ _ (hreq ▸ h2.symm))]
      exact ⟨rfl, by simp [hreq]⟩
    | error m =>
      rw [hr] at h2
      rw [fetchWithRetry_exhausted net st m hr,
        fetchWithRetry_exhausted net2 st2 m (hreq ▸ h2.symm)]
      exact ⟨rfl, by simp [hreq]⟩
  | succ r ih =>
    intro st st2 hreq hnet
    have h2 := hnet st.requests (le_refl _)
    cases hr : (net st.requests).result with
    | ok body =>
      rw [hr] at h2
      rw [fetchWithRetry_ok net (r + 1) st body (result_ok _ _ hr),
        fetchWithRetry_ok net2 (r + 1) st2 body (result_ok _ _ (hreq ▸ h2.symm))]
      exact ⟨rfl, by simp [hreq]⟩
    | error m =>
      rw [hr] at h2
      rw [fetchWithRetry_retry net r st m hr,
        fetchWithRetry_retry net2 r st2 m (hreq ▸ h2.symm)]
      apply ih
      · simp [hreq]
      · intro i hi
        exact hnet i (by simp only at hi; omega)

/-- C7: a value returned by `fetchWithRetry` is always the parsed body of a
response with `ok` true to one of the requests of the call. An attempt whose
response has `ok` true but whose body does not parse is a failure: with
retries left the call waits and recurses with one retry less, with none left
it throws the aggregated error, and the outcome of the call and the number of
requests it makes are those of the same call with a transport failure of the
same message at that attempt. -/
theorem fetchWithRetry_parse_failure_is_failure (net : Nat → Attempt) (retries : Nat)
    (st : FetchState) :
    (∀ value, (fetchWithRetry net retries st).1 = .ok value →
      ∃ i, st.requests ≤ i ∧ i ≤ st.requests + retries ∧ net i = .ok value) ∧
    (∀ message, net st.requests = .parseError message →
      (∀ r, retries = r + 1 →
        fetchWithRetry net retries st =
          fetchWithRetry net r ⟨1, st.requests + 1, st.waits ++ [RETRY_DELAY * 1]⟩) ∧
      (retries = 0 →
        (fetchWithRetry net retries st).1 = .error ("Failed after 3 attempts: " ++ message)) ∧
      (fetchWithRetry net retries st).1
        = (fetchWithRetry (Function.update net st.requests (.transportError message))
            retries st).1 ∧
      (fetchWithRetry net retries st).2.requests
        = (fetchWithRetry (Function.update net st.requests (.transportError message))
            retries st).2.requests) := by
  refine ⟨fetchWithRetry_value_is_parsed_body net retries st, ?_⟩
  intro message hparse
  have hres : (net st.requests).result = .error message := by rw [hparse]; rfl
  refine ⟨?_, ?_, ?_⟩
  · intro r hr
    subst hr
    rw [fetchWithRetry_retry net r st message hres]
    simp [hparse, Attempt.counterAfter, Attempt.noOkResponse]
  · intro h0
    subst h0
    rw [fetchWithRetry_exhausted net st message hres]
  · apply fetchWithRetry_outcome_congr net _ retries st st rfl
    intro i _
    by_cases hi : i = st.requests
    · subst hi
      rw [Function.update_same, hres]
      rfl
    · rw [Function.update_noteq hi]

/-- C7 on a run whose first response is a 200 with a body that does not parse
and whose second is a 200 with the body 7. -/
theorem fetchWithRetry_parse_failure_is_failure_witness :
    fetchWithRetry
        (fun i => if i = 0 then .parseError "Unexpected token <" else .ok (.num 7))
        MAX_RETRY_ATTEMPTS FetchState.initial
      = fetchWithRetry
        (fun i => if i = 0 then .parseError "Unexpected token <" else .ok (.num 7))
        2 ⟨1, 1, [RETRY_DELAY * 1]⟩ :=
  ((fetchWithRetry_parse_failure_is_failure
    (fun i => if i = 0 then .parseError "Unexpected token <" else .ok (.num 7))
    MAX_RETRY_ATTEMPTS FetchState.initial).2 "Unexpected token <" (by rfl)).1 2 (by rfl)

/-! ## Theorems: rolling chart buffer -/

theorem lastN_length {α : Type} (n : Nat) (l : List α) : (lastN n l).length = min n l.length := by
  unfold lastN
  rw [List.length_drop]
  omega

theorem lastN_of_length_le {α : Type} (n : Nat) (l : List α) (h : l.length ≤ n) :
    lastN n l = l := by
  unfold lastN
  rw [Nat.sub_eq_zero_of_le h, List.drop_zero]

/-- Pushing onto a list of at most 10 elements, then shifting when there are
more than 10, keeps the last 10 elements of the extended list. -/
theorem push_shift_eq_lastN {α : Type} (l : List α) (x : α) (h : l.length ≤ 10) :
    (if (l ++ [x]).length > 10 then (l ++ [x]).tail else l ++ [x]) = lastN 10 (l ++ [x]) := by
  by_cases h10 : l.length = 10
  · have hgt : (l ++ [x]).length > 10 := by simp [h10]
    rw [if_pos hgt]
    unfold lastN
    have : (l ++ [x]).length - 10 = 1 := by simp [h10]
    rw [this, List.drop_one]
  · have hle : ¬ (l ++ [x]).length > 10 := by simp; omega
    rw [if_neg hle]
    exact (lastN_of_length_le 10 _ (by simp; omega)).symm

theorem lastN_lastN_append {α : Type} (n : Nat) (l m : List α) :
    lastN n (lastN n l ++ m) = lastN n (l ++ m) := by
  by_cases h : l.length ≤ n
  · rw [lastN_of_length_le n l h]
  · have hlen : (lastN n l).length = n := by rw [lastN_length]; omega
    have h1 : lastN n l ++ m = (l ++ m).drop (l.length - n) := by
      unfold lastN
      rw [List.drop_append_of_le_length (by omega)]
    unfold lastN at *
    rw [h1, List.drop_drop]
    congr 1
    simp only [List.length_drop, List.length_append]
    omega

theorem lastN_replicate_append {α : Type} (x : α) (m : List α) :
    lastN 10 (List.replicate 10 x ++ m) = List.replicate (10 - m.length) x ++ lastN 10 m := by
  unfold lastN
  rw [List.drop_append_eq_append_drop]
  simp only [List.length_append, List.length_replicate, List.drop_replicate]
  congr 2 <;> omega

theorem updateChart_some (c : ChartData) (now : Clock) (v : JSVal)
    (hlen : c.labels.length = c.data.length) (hcap : c.labels.length ≤ 10) :
    updateChart (some c) now v =
      some ⟨lastN 10 (c.labels ++ [timeString now]), lastN 10 (c.data ++ [v])⟩ := by
  have h1 := push_shift_eq_lastN c.labels (timeString now) hcap
  have h2 := push_shift_eq_lastN c.data v (hlen ▸ hcap)
  have hiff : (c.labels ++ [timeString now]).length > 10 ↔ (c.data ++ [v]).length > 10 := by
    simp [hlen]
  unfold updateChart
  simp only
  by_cases hgt : (c.labels ++ [timeString now]).length > 10
  · rw [if_pos hgt] at h1
    rw [if_pos (hiff.mp hgt)] at h2
    rw [if_pos hgt, h1, h2]
  · rw [if_neg hgt] at h1
    rw [if_neg (fun h => hgt (hiff.mpr h))] at h2
    rw [if_neg hgt, ← h1, ← h2]

theorem updateChartAll_some (ps : List (Clock × JSVal)) : ∀ (c : ChartData),
    c.labels.length = c.data.length → c.labels.length ≤ 10 →
    updateChartAll (some c) ps =
      some ⟨lastN 10 (c.labels ++ ps.map (fun p => timeString p.1)),
        lastN 10 (c.data ++ ps.map (fun p => p.2))⟩ := by
  induction ps with
  | nil =>
    intro c hlen hcap
    simp [updateChartAll, lastN_of_length_le 10 c.labels hcap,
      lastN_of_length_le 10 c.data (hlen ▸ hcap)]
  | cons p rest ih =>
    intro c hlen hcap
    obtain ⟨now, v⟩ := p
    simp only [updateChartAll]
    rw [updateChart_some c now v hlen hcap]
    rw [ih _ (by simp [lastN_length, hlen]) (by simp only [lastN_length]; omega)]
    simp only [lastN_lastN_append, List.map_cons, List.append_assoc, List.singleton_append]

/-- C8: starting from a chart buffer as created by `initializeCharts`, after
every sequence of `updateChart` calls the labels and the data hold at most 10
entries each, and they are what is left of the 10 initial placeholders
followed by the last 10 pushed points, in the order of the pushes, the
oldest first and the newest last. -/
theorem updateChart_bounded_and_ordered (ps : List (Clock × JSVal)) :
    ∃ c, updateChartAll (some initializeCharts) ps = some c ∧
      c.labels.length ≤ 10 ∧ c.data.length ≤ 10 ∧
      c.labels = List.replicate (10 - ps.length) ""
        ++ (ps.map (fun p => timeString p.1)).drop (ps.length - 10) ∧
      c.data = List.replicate (10 - ps.length) JSVal.null
        ++ (ps.map (fun p => p.2)).drop (ps.length - 10) := by
  refine ⟨_, updateChartAll_some ps initializeCharts (by simp [initializeCharts])
    (by simp [initializeCharts]), ?_, ?_, ?_, ?_⟩
  · simp only [lastN_length]; omega
  · simp only [lastN_length]; omega
  · simp only [initializeCharts]
    rw [lastN_replicate_append]
    simp [lastN]
  · simp only [initializeCharts]
    rw [lastN_replicate_append]
    simp [lastN]

/-- C9: on a buffer whose labels and data have the same length, at most 10,
`updateChart` leaves the last 10 elements of the old content followed by the
new point: the new label and the unchanged new value are last, the oldest
point is dropped exactly when the buffer already held 10 points, and labels
and data keep equal length and stay paired. -/
theorem updateChart_push (c : ChartData) (now : Clock) (newValue : JSVal)
    (hlen : c.labels.length = c.data.length) (hcap : c.labels.length ≤ 10) :
    ∃ c1, updateChart (some c) now newValue = some c1 ∧
      c1.labels = lastN 10 (c.labels ++ [timeString now]) ∧
      c1.data = lastN 10 (c.data ++ [newValue]) ∧
      c1.labels.getLast? = some (timeString now) ∧
      c1.data.getLast? = some newValue ∧
      c1.labels.length = c1.data.length ∧
      (c.labels.length = 10 →
        c1.labels = c.labels.tail ++ [timeString now] ∧ c1.data = c.data.tail ++ [newValue]) ∧
      (c.labels.length < 10 →
        c1.labels = c.labels ++ [timeString now] ∧ c1.data = c.data ++ [newValue]) ∧
      List.zip c1.labels c1.data
        = lastN 10 (List.zip c.labels c.data ++ [(timeString now, newValue)]) := by
  have hfull : ∀ {α : Type} (l : List α) (x : α), l.length = 10 →
      lastN 10 (l ++ [x]) = l.tail ++ [x] := by
    intro α l x hl
    rw [← push_shift_eq_lastN l x (by omega), if_pos (by simp [hl])]
    cases l with
    | nil => simp at hl
    | cons a t => rfl
  have hroom : ∀ {α : Type} (l : List α) (x : α), l.length < 10 →
      lastN 10 (l ++ [x]) = l ++ [x] := by
    intro α l x hl
    exact lastN_of_length_le 10 _ (by simp; omega)
  have hlast : ∀ {α : Type} (l : List α) (x : α), l.length ≤ 10 →
      (lastN 10 (l ++ [x])).getLast? = some x := by
    intro α l x hl
    by_cases h10 : l.length = 10
    · rw [hfull l x h10]; simp
    · rw [hroom l x (by omega)]; simp
  refine ⟨_, updateChart_some c now newValue hlen hcap, rfl, rfl, hlast _ _ hcap,
    hlast _ _ (hlen ▸ hcap), ?_, ?_, ?_, ?_⟩
  · simp [lastN_length, hlen]
  · intro h10
    exact ⟨hfull _ _ h10, hfull _ _ (hlen ▸ h10)⟩
  · intro hlt
    exact ⟨hroom _ _ hlt, hroom _ _ (hlen ▸ hlt)⟩
  · have hz : List.zip (c.labels ++ [timeString now]) (c.data ++ [newValue])
        = List.zip c.labels c.data ++ [(timeString now, newValue)] := by
      rw [List.zip_append hlen]
      rfl
    simp only [lastN]
    rw [← hz]
    simp only [List.zip, List.drop_zipWith, List.length_zipWith, List.length_append, hlen,
      List.length_singleton, min_self]

/-- C9 on a full buffer and a value outside the range of a percentage: 250 is
stored last, unchanged, and the first of the 10 placeholders is dropped. -/
theorem updateChart_push_witness :
    ∃ c1, updateChart (some initializeCharts) ⟨12, 0, 5⟩ (.num 250) = some c1 ∧
      c1.data.getLast? = some (.num 250) ∧
      c1.data = initializeCharts.data.tail ++ [.num 250] := by
  obtain ⟨c1, h1, _, _, _, h5, _, h7, _, _⟩ :=
    updateChart_push initializeCharts ⟨12, 0, 5⟩ (.num 250)
      (by simp [initializeCharts]) (by simp [initializeCharts])
  exact ⟨c1, h1, h5, (h7 (by simp [initializeCharts])).2⟩

/-! ## Theorems: pod status tally -/

theorem foldl_countPod (pods : List Pod) : ∀ t : PodStatusTally,
    pods.foldl countPod t =
      { running := t.running + (classify (pods.map (fun p => p.status))).running,
        pending := t.pending + (classify (pods.map (fun p => p.status))).pending,
        failed := t.failed + (classify (pods.map (fun p => p.status))).failed } := by
  induction pods with
  | nil => intro t; simp [classify]
  | cons pod rest ih =>
    intro t
    rw [List.foldl_cons, ih]
    simp only [classify, List.map_cons, List.countP_cons, countPod]
    cases h1 : includes (toLowerCase pod.status) "running" <;>
    cases h2 : includes (toLowerCase pod.status) "pending" <;>
    cases h3 : includes (toLowerCase pod.status) "failed" <;>
    cases h4 : includes (toLowerCase pod.status) "error" <;>
    simp <;> omega

/-- C10: for every sequence of pods, the counters computed by the loop of
`fetchPodStatuses` over their raw status strings are those of the reference
definition `classify`; and the statuses "Running", "Pending",
"CrashLoopBackOff", "Failed: OOM" give running 1, pending 1, failed 1. -/
theorem countPodStatuses_eq_classify (pods : List Pod) :
    countPodStatuses pods = classify (pods.map (fun p => p.status)) ∧
    countPodStatuses [⟨"web-0", "Running"⟩, ⟨"web-1", "Pending"⟩,
        ⟨"web-2", "CrashLoopBackOff"⟩, ⟨"web-3", "Failed: OOM"⟩]
      = { running := 1, pending := 1, failed := 1 } := by
  constructor
  · unfold countPodStatuses
    rw [foldl_countPod]
    simp
  · decide

/-! ## Theorems: refresh scheduler -/

theorem cleanup_canon (s : Scheduler) (I T : Option Timer) (h : CanonWith s I T) :
    cleanup s = { s with timers := [], autoRefreshInterval := none, refreshTimeout := none } := by
  obtain ⟨_, hord, hI, hT, hIp, hTp, hd⟩ := h
  rcases s with ⟨now, nextId, timers, ari, rt, cycles⟩
  simp only at hord hI hT hIp hTp hd
  cases I with
  | none =>
    cases T with
    | none =>
      simp at hord hI hT
      subst hord hI hT
      rfl
    | some t =>
      simp at hord hI hT hTp
      subst hord hI hT
      have h0 : t.id ≠ 0 := by omega
      simp [cleanup, clearTimer, h0]
  | some i =>
    cases T with
    | none =>
      simp at hord hI hT hIp
      subst hord hI hT
      have h0 : i.id ≠ 0 := by omega
      simp [cleanup, clearTimer, h0]
    | some t =>
      simp at hord hI hT hIp hTp hd
      subst hI hT
      have h0 : i.id ≠ 0 := by omega
      have h1 : t.id ≠ 0 := by omega
      rcases hord with hord | hord <;> subst hord <;>
        simp [cleanup, clearTimer, h0, h1, hd, Ne.symm hd]

theorem toggle_on_canon (s : Scheduler) (I T : Option Timer) (h : CanonWith s I T) :
    toggleAutoRefresh true s =
      { s with nextId := s.nextId + 1,
               timers := [⟨s.nextId, .interval, s.now + 10000, 10000⟩],
               autoRefreshInterval := some s.nextId, refreshTimeout := none } ∧
    CanonWith (toggleAutoRefresh true s)
      (some ⟨s.nextId, .interval, s.now + 10000, 10000⟩) none := by
  have hc := cleanup_canon s I T h
  have heq : toggleAutoRefresh true s =
      { s with nextId := s.nextId + 1,
               timers := [⟨s.nextId, .interval, s.now + 10000, 10000⟩],
               autoRefreshInterval := some s.nextId, refreshTimeout := none } := by
    simp [toggleAutoRefresh, hc, setTimer]
  refine ⟨heq, ?_⟩
  rw [heq]
  have hn := h.1
  refine ⟨by simp, by simp, by simp, by simp, ?_, by simp, by simp⟩
  intro t ht
  simp at ht
  subst ht
  simp [hn]

theorem toggle_off_canon (s : Scheduler) (I T : Option Timer) (h : CanonWith s I T) :
    toggleAutoRefresh false s =
      { s with timers := [], autoRefreshInterval := none, refreshTimeout := none } ∧
    CanonWith (toggleAutoRefresh false s) none none := by
  have hc := cleanup_canon s I T h
  have heq : toggleAutoRefresh false s =
      { s with timers := [], autoRefreshInterval := none, refreshTimeout := none } := by
    simp [toggleAutoRefresh, hc]
  refine ⟨heq, ?_⟩
  rw [heq]
  exact ⟨h.1, by simp, by simp, by simp, by simp, by simp, by simp⟩

theorem cleanup_canon_none (s : Scheduler) (I T : Option Timer) (h : CanonWith s I T) :
    CanonWith (cleanup s) none none := by
  rw [cleanup_canon s I T h]
  exact ⟨h.1, by simp, by simp, by simp, by simp, by simp, by simp⟩

/-- While the cooldown timer is outstanding, `manualRefresh` changes nothing. -/
theorem manualRefresh_in_cooldown (s : Scheduler) (I : Option Timer) (t : Timer)
    (h : CanonWith s I (some t)) : manualRefresh s = s := by
  obtain ⟨_, _, _, hT, _, hTp, _⟩ := h
  have h0 := (hTp t rfl).2.1
  simp only [Option.map_some'] at hT
  unfold manualRefresh
  rw [hT]
  simp
  omega

/-- With no cooldown timer outstanding, `manualRefresh` runs one cycle and
registers the cooldown timer, due 1000 ms later. -/
theorem manualRefresh_idle (s : Scheduler) (I : Option Timer) (h : CanonWith s I none) :
    manualRefresh s =
      { s with nextId := s.nextId + 1,
               timers := s.timers ++ [⟨s.nextId, .timeout, s.now + 1000, 1000⟩],
               refreshTimeout := some s.nextId, cycles := s.cycles + 1 } ∧
    CanonWith (manualRefresh s) I (some ⟨s.nextId, .timeout, s.now + 1000, 1000⟩) := by
  obtain ⟨hn, hord, hI, hT, hIp, _, _⟩ := h
  simp only [Option.map_none'] at hT
  have heq : manualRefresh s =
      { s with nextId := s.nextId + 1,
               timers := s.timers ++ [⟨s.nextId, .timeout, s.now + 1000, 1000⟩],
               refreshTimeout := some s.nextId, cycles := s.cycles + 1 } := by
    unfold manualRefresh
    rw [hT]
    simp [setTimer, updateDashboardCall]
  refine ⟨heq, ?_⟩
  rw [heq]
  have htim : s.timers = I.toList := by
    rcases hord with h1 | h1 <;> simpa using h1
  refine ⟨by simp, ?_, by simpa using hI, by simp, ?_, ?_, ?_⟩
  · left
    simp [htim]
  · intro t ht
    obtain ⟨a, b, c, d, e, f⟩ := hIp t ht
    exact ⟨a, b, by simp; omega, d, e, f⟩
  · intro t ht
    simp at ht
    subst ht
    simp [hn]
  · intro a ha b hb
    simp at hb
    subst hb
    have := (hIp a ha).2.2.1
    simp
    omega

theorem tick_canon (s : Scheduler) (I T : Option Timer) (h : CanonWith s I T) :
    CanonWith (tick s) (tickInterval s.now I) (tickTimeout s.now T) ∧
    (tick s).now = s.now + 1 ∧ (tick s).nextId = s.nextId ∧
    (tick s).cycles = s.cycles + (if ∃ t ∈ I, t.due = s.now + 1 then 1 else 0) := by
  obtain ⟨hn, hord, hI, hT, hIp, hTp, hd⟩ := h
  rcases s with ⟨now, nextId, timers, ari, rt, cycles⟩
  simp only at hn hord hI hT hIp hTp hd
  cases I with
  | none =>
    cases T with
    | none =>
      simp at hord hI hT
      subst hord hI hT
      simp [tick, CanonWith, tickInterval, tickTimeout, hn]
    | some t =>
      simp at hord hI hT hTp
      subst hord hI hT
      obtain ⟨tk, t0, tn, td, td2⟩ := hTp
      by_cases ht : t.due = now + 1
      · simp [tick, fire, clearTimer, CanonWith, tickInterval, tickTimeout, ht, tk, hn]
      · simp [tick, fire, clearTimer, CanonWith, tickInterval, tickTimeout, ht, tk, hn, t0, tn]
        omega
  | some i =>
    cases T with
    | none =>
      simp at hord hI hT hIp
      subst hord hI hT
      obtain ⟨ik, i0, inn, idd, id2, idl⟩ := hIp
      by_cases hi : i.due = now + 1
      · simp [tick, fire, updateDashboardCall, CanonWith, tickInterval, tickTimeout, hi, ik, hn,
          i0, inn, idl]
      · simp [tick, fire, updateDashboardCall, CanonWith, tickInterval, tickTimeout, hi, ik, hn,
          i0, inn, idl]
        omega
    | some t =>
      simp at hord hI hT hIp hTp hd
      subst hI hT
      obtain ⟨ik, i0, inn, idd, id2, idl⟩ := hIp
      obtain ⟨tk, t0, tn, td, td2⟩ := hTp
      have hd2 : ¬ t.id = i.id := fun h => hd h.symm
      by_cases hi : i.due = now + 1 <;> by_cases ht : t.due = now + 1 <;>
        rcases hord with hord | hord <;> subst hord <;>
        simp [tick, fire, clearTimer, updateDashboardCall, CanonWith, tickInterval, tickTimeout,
          hi, ht, ik, tk, hn, i0, inn, idl, t0, tn, hd, hd2] <;>
        (try omega)

/-- Every reachable state has the canonical shape. -/
theorem reachable_canon (s : Scheduler) (h : Reachable s) : ∃ I T, CanonWith s I T := by
  induction h with
  | initial =>
    exact ⟨none, none, by decide, by simp [Scheduler.initial], by simp [Scheduler.initial],
      by simp [Scheduler.initial], by simp, by simp, by simp⟩
  | step s e _ ih =>
    obtain ⟨I, T, hc⟩ := ih
    cases e with
    | enableAuto => exact ⟨_, _, (toggle_on_canon s I T hc).2⟩
    | disableAuto => exact ⟨_, _, (toggle_off_canon s I T hc).2⟩
    | manualRefresh =>
      cases T with
      | none => exact ⟨_, _, (manualRefresh_idle s I hc).2⟩
      | some t =>
        refine ⟨I, some t, ?_⟩
        simp only [step]
        rw [manualRefresh_in_cooldown s I t hc]
        exact hc
    | teardown => exact ⟨_, _, cleanup_canon_none s I T hc⟩
    | tick => exact ⟨_, _, (tick_canon s I T hc).1⟩

theorem advance_add (a b : Nat) : ∀ s : Scheduler, advance (a + b) s = advance b (advance a s) := by
  induction a with
  | zero => intro s; simp [advance]
  | succ a ih =>
    intro s
    have : a + 1 + b = (a + b) + 1 := by omega
    rw [this]
    simp only [advance]
    exact ih (tick s)

theorem advance_reachable (n : Nat) : ∀ s : Scheduler, Reachable s → Reachable (advance n s) := by
  induction n with
  | zero => intro s h; exact h
  | succ n ih =>
    intro s h
    simp only [advance]
    exact ih _ (Reachable.step s .tick h)

/-- With no timer outstanding, the passing of time changes the clock only. -/
theorem advance_no_timers (n : Nat) : ∀ s : Scheduler, s.timers = [] →
    advance n s = { s with now := s.now + n } := by
  induction n with
  | zero => intro s _; rfl
  | succ n ih =>
    intro s h
    have ht : tick s = { s with now := s.now + 1 } := by simp [tick, h]
    simp only [advance]
    rw [ht, ih _ (by simpa using h)]
    simp [Nat.add_assoc, Nat.add_comm 1 n]

/-- While the cooldown timer is not yet due it stays outstanding. -/
theorem advance_keeps_cooldown (k : Nat) : ∀ (s : Scheduler) (I : Option Timer) (t : Timer),
    CanonWith s I (some t) → s.now + k < t.due →
    ∃ I2, CanonWith (advance k s) I2 (some t) := by
  induction k with
  | zero => intro s I t h _; exact ⟨I, h⟩
  | succ k ih =>
    intro s I t h hk
    obtain ⟨hc, hnow, _, _⟩ := tick_canon s I (some t) h
    have hT : tickTimeout s.now (some t) = some t := by
      simp only [tickTimeout]
      rw [if_neg (by omega)]
    rw [hT] at hc
    simp only [advance]
    exact ih (tick s) _ t hc (by rw [hnow]; omega)

/-- Before the periodic timer is due, the passing of time runs no cycle. -/
theorem advance_before_due (k : Nat) : ∀ (s : Scheduler) (i : Timer),
    CanonWith s (some i) none → s.now + k < i.due →
    CanonWith (advance k s) (some i) none ∧ (advance k s).cycles = s.cycles ∧
      (advance k s).now = s.now + k := by
  induction k with
  | zero => intro s i h _; exact ⟨h, rfl, rfl⟩
  | succ k ih =>
    intro s i h hk
    obtain ⟨hc, hnow, _, hcyc⟩ := tick_canon s (some i) none h
    have hI : tickInterval s.now (some i) = some i := by
      simp only [tickInterval]
      rw [if_neg (by omega)]
    have hT : tickTimeout s.now none = none := rfl
    rw [hI, hT] at hc
    have hcyc2 : (tick s).cycles = s.cycles := by
      rw [hcyc, if_neg]
      · rfl
      · simp; omega
    simp only [advance]
    obtain ⟨h1, h2, h3⟩ := ih (tick s) i hc (by rw [hnow]; omega)
    exact ⟨h1, by rw [h2, hcyc2], by rw [h3, hnow]; omega⟩

/-- At the time the periodic timer is due, one cycle runs and the timer is
scheduled one period later. -/
theorem advance_to_due (s : Scheduler) (i : Timer) (h : CanonWith s (some i) none) :
    CanonWith (advance (i.due - s.now) s) (some { i with due := i.due + 10000 }) none ∧
      (advance (i.due - s.now) s).cycles = s.cycles + 1 ∧
      (advance (i.due - s.now) s).now = i.due := by
  have hi := h.2.2.2.2.1 i rfl
  obtain ⟨k, hk⟩ : ∃ k, i.due - s.now = k + 1 := ⟨i.due - s.now - 1, by omega⟩
  rw [hk, advance_add k 1]
  obtain ⟨h1, h2, h3⟩ := advance_before_due k s i h (by omega)
  obtain ⟨hc, hnow, _, hcyc⟩ := tick_canon (advance k s) (some i) none h1
  have hI : tickInterval (advance k s).now (some i) = some { i with due := i.due + 10000 } := by
    simp only [tickInterval]
    rw [if_pos (by omega), hi.2.2.2.2.2]
  have hT : tickTimeout (advance k s).now none = none := rfl
  rw [hI, hT] at hc
  simp only [advance]
  refine ⟨hc, ?_, by rw [hnow, h3]; omega⟩
  rw [hcyc, if_pos, h2]
  exact ⟨i, rfl, by omega⟩

/-- A single periodic timer registered at the current time runs exactly one
cycle per period. -/
theorem advance_periods (n : Nat) : ∀ (s : Scheduler) (i : Timer),
    CanonWith s (some i) none → i.due = s.now + 10000 →
    CanonWith (advance (10000 * n) s) (some { i with due := i.due + 10000 * n }) none ∧
      (advance (10000 * n) s).cycles = s.cycles + n ∧
      (advance (10000 * n) s).now = s.now + 10000 * n := by
  induction n with
  | zero => intro s i h _; exact ⟨h, rfl, rfl⟩
  | succ n ih =>
    intro s i h hdue
    have h10 : 10000 * (n + 1) = (i.due - s.now) + 10000 * n := by omega
    rw [h10, advance_add]
    obtain ⟨h1, h2, h3⟩ := advance_to_due s i h
    obtain ⟨g1, g2, g3⟩ := ih (advance (i.due - s.now) s) { i with due := i.due + 10000 } h1
      (by simp only [h3])
    refine ⟨?_, by rw [g2, h2]; omega, by rw [g3, h3]; omega⟩
    simp only at g1
    have hd : i.due + (i.due - s.now + 10000 * n) = i.due + 10000 + 10000 * n := by omega
    rw [hd]
    exact g1

/-- C11: from every reachable state, two calls of `toggleAutoRefresh` with the
toggle checked leave exactly one timer outstanding, the periodic timer of the
second call, recorded in `autoRefreshInterval`; the timer of the first call
is cancelled; and from then on every full period of 10000 ms runs the refresh
cycle exactly once. -/
theorem enableAuto_twice_one_timer (s : Scheduler) (h : Reachable s) :
    (toggleAutoRefresh true (toggleAutoRefresh true s)).timers
      = [⟨s.nextId + 1, .interval, s.now + 10000, 10000⟩] ∧
    (periodicTimers (toggleAutoRefresh true (toggleAutoRefresh true s))).length = 1 ∧
    (toggleAutoRefresh true s).autoRefreshInterval = some s.nextId ∧
    (toggleAutoRefresh true (toggleAutoRefresh true s)).autoRefreshInterval
      = some (s.nextId + 1) ∧
    (∀ t ∈ (toggleAutoRefresh true (toggleAutoRefresh true s)).timers, t.id ≠ s.nextId) ∧
    ∀ n k, k < 10000 →
      (advance (10000 * n + k) (toggleAutoRefresh true (toggleAutoRefresh true s))).cycles
        = (toggleAutoRefresh true (toggleAutoRefresh true s)).cycles + n := by
  obtain ⟨I, T, hc⟩ := reachable_canon s h
  obtain ⟨e1, c1⟩ := toggle_on_canon s I T hc
  obtain ⟨e2, c2⟩ := toggle_on_canon (toggleAutoRefresh true s) _ _ c1
  have hid : (toggleAutoRefresh true s).nextId = s.nextId + 1 := by rw [e1]
  have hnow : (toggleAutoRefresh true s).now = s.now := by rw [e1]
  have htim : (toggleAutoRefresh true (toggleAutoRefresh true s)).timers
      = [⟨s.nextId + 1, .interval, s.now + 10000, 10000⟩] := by
    rw [e2, hid, hnow]
  refine ⟨htim, ?_, by rw [e1], by rw [e2, hid], ?_, ?_⟩
  · simp [periodicTimers, htim]
  · intro t ht
    rw [htim] at ht
    simp at ht
    subst ht
    simp
  · intro n k hk
    rw [advance_add]
    have hnow2 : (toggleAutoRefresh true (toggleAutoRefresh true s)).now
        = (toggleAutoRefresh true s).now := by rw [e2]
    obtain ⟨g1, g2, g3⟩ := advance_periods n _ _ c2 (by simp only [hnow2])
    obtain ⟨_, k2, _⟩ := advance_before_due k _ _ g1 (by rw [g3]; simp only [hnow2]; omega)
    rw [k2, g2]

/-- C11 after a manual refresh on the fresh page. -/
theorem enableAuto_twice_one_timer_witness :
    (periodicTimers (toggleAutoRefresh true
      (toggleAutoRefresh true (manualRefresh Scheduler.initial)))).length = 1 :=
  (enableAuto_twice_one_timer (manualRefresh Scheduler.initial)
    (Reachable.step Scheduler.initial .manualRefresh Reachable.initial)).2.1

/-- C12, the code at the failing input: on the fresh page a manual refresh
opens the cooldown (handle 1, no periodic timer); `toggleAutoRefresh` with the
toggle unchecked then cancels the cooldown timer and sets `refreshTimeout` to
null, so the state is not left as it was. -/
theorem disableAuto_clears_cooldown :
    (manualRefresh Scheduler.initial).autoRefreshInterval = none ∧
    (manualRefresh Scheduler.initial).refreshTimeout = some 1 ∧
    (manualRefresh Scheduler.initial).timers = [⟨1, .timeout, 1000, 1000⟩] ∧
    (toggleAutoRefresh false (manualRefresh Scheduler.initial)).refreshTimeout = none ∧
    (toggleAutoRefresh false (manualRefresh Scheduler.initial)).timers = [] ∧
    toggleAutoRefresh false (manualRefresh Scheduler.initial) ≠ manualRefresh Scheduler.initial := by
  decide

/-- C13: when `manualRefresh` is called with no cooldown open, it runs the
refresh cycle once and opens the cooldown; every further call made while less
than 1000 ms have passed, with only the clock and its periodic ticks in
between, changes nothing: the state is the one reached by the passing of time
alone, so no cycle is run, no timer is registered and nothing is queued. -/
theorem manualRefresh_debounced (s : Scheduler) (h : Reachable s)
    (hidle : s.refreshTimeout = none) (dts : List Nat) (hwin : dts.sum < 1000) :
    (manualRefresh s).cycles = s.cycles + 1 ∧
    dts.foldl (fun st dt => manualRefresh (advance dt st)) (manualRefresh s)
      = advance dts.sum (manualRefresh s) := by
  obtain ⟨I, T, hc⟩ := reachable_canon s h
  have hT : T = none := by
    have := hc.2.2.2.1
    rw [hidle] at this
    cases T with
    | none => rfl
    | some t => simp at this
  subst hT
  obtain ⟨e1, c1⟩ := manualRefresh_idle s I hc
  refine ⟨by rw [e1], ?_⟩
  have hnow : (manualRefresh s).now = s.now := by rw [e1]
  have key : ∀ (l : List Nat) (a : Nat), a + l.sum < 1000 →
      l.foldl (fun st dt => manualRefresh (advance dt st)) (advance a (manualRefresh s))
        = advance (a + l.sum) (manualRefresh s) := by
    intro l
    induction l with
    | nil => intro a _; simp
    | cons d rest ih =>
      intro a ha
      simp only [List.sum_cons] at ha
      simp only [List.foldl_cons, List.sum_cons]
      rw [← advance_add]
      obtain ⟨I2, c2⟩ := advance_keeps_cooldown (a + d) (manualRefresh s) I _ c1
        (by rw [hnow]; simp only; omega)
      rw [manualRefresh_in_cooldown _ I2 _ c2, ih (a + d) (by omega)]
      congr 1
      omega
  have := key dts 0 (by omega)
  simpa [advance] using this

/-- C13 on the fresh page: clicks 100 ms and 400 ms after the first one. -/
theorem manualRefresh_debounced_witness :
    (manualRefresh Scheduler.initial).cycles = Scheduler.initial.cycles + 1 ∧
    [100, 300].foldl (fun st dt => manualRefresh (advance dt st))
        (manualRefresh Scheduler.initial)
      = advance [100, 300].sum (manualRefresh Scheduler.initial) :=
  manualRefresh_debounced Scheduler.initial Reachable.initial rfl [100, 300] (by decide)

/-- C14: from every reachable state `cleanup` leaves no timer outstanding and
both handles null, without running a cycle; after it no amount of time runs a
further cycle; and a second `cleanup` changes nothing. -/
theorem cleanup_leaves_no_timer (s : Scheduler) (h : Reachable s) :
    (cleanup s).timers = [] ∧
    (cleanup s).autoRefreshInterval = none ∧
    (cleanup s).refreshTimeout = none ∧
    (cleanup s).cycles = s.cycles ∧
    (∀ n, (advance n (cleanup s)).cycles = (cleanup s).cycles) ∧
    cleanup (cleanup s) = cleanup s := by
  obtain ⟨I, T, hc⟩ := reachable_canon s h
  have e := cleanup_canon s I T hc
  have c2 := cleanup_canon_none s I T hc
  have ht : (cleanup s).timers = [] := by rw [e]
  refine ⟨ht, by rw [e], by rw [e], by rw [e], ?_, ?_⟩
  · intro n
    rw [advance_no_timers n _ ht]
  · rw [cleanup_canon (cleanup s) none none c2]
    rw [e]

/-- C14 with a periodic timer and a cooldown outstanding. -/
theorem cleanup_leaves_no_timer_witness :
    (cleanup (manualRefresh (toggleAutoRefresh true Scheduler.initial))).timers = [] :=
  (cleanup_leaves_no_timer (manualRefresh (toggleAutoRefresh true Scheduler.initial))
    (Reachable.step _ .manualRefresh
      (Reachable.step Scheduler.initial .enableAuto Reachable.initial))).1

/-- C15: in every reachable state at most one periodic timer and at most one
cooldown timer are outstanding, and every outstanding timer is the one whose
handle is in `autoRefreshInterval` (a periodic timer) or in `refreshTimeout`
(a cooldown timer). -/
theorem scheduler_timers_recorded (s : Scheduler) (h : Reachable s) :
    (periodicTimers s).length ≤ 1 ∧
    (cooldownTimers s).length ≤ 1 ∧
    ∀ t ∈ s.timers,
      (t.kind = .interval ∧ s.autoRefreshInterval = some t.id) ∨
      (t.kind = .timeout ∧ s.refreshTimeout = some t.id) := by
  obtain ⟨I, T, _, hord, hI, hT, hIp, hTp, _⟩ := reachable_canon s h
  cases I with
  | none =>
    cases T with
    | none =>
      have ht : s.timers = [] := by rcases hord with h1 | h1 <;> simpa using h1
      simp [periodicTimers, cooldownTimers, ht]
    | some t =>
      have ht : s.timers = [t] := by rcases hord with h1 | h1 <;> simpa using h1
      have tk := (hTp t rfl).1
      simp [periodicTimers, cooldownTimers, ht, tk, hT]
  | some i =>
    have ik := (hIp i rfl).1
    cases T with
    | none =>
      have ht : s.timers = [i] := by rcases hord with h1 | h1 <;> simpa using h1
      simp [periodicTimers, cooldownTimers, ht, ik, hI]
    | some t =>
      have tk := (hTp t rfl).1
      rcases hord with h1 | h1 <;> simp at h1 <;>
        simp [periodicTimers, cooldownTimers, h1, ik, tk, hI, hT]

/-- C15 with a periodic timer and a cooldown outstanding. -/
theorem scheduler_timers_recorded_witness :
    (periodicTimers (manualRefresh (toggleAutoRefresh true Scheduler.initial))).length ≤ 1 ∧
    (cooldownTimers (manualRefresh (toggleAutoRefresh true Scheduler.initial))).length ≤ 1 :=
  ⟨(scheduler_timers_recorded (manualRefresh (toggleAutoRefresh true Scheduler.initial))
      (Reachable.step _ .manualRefresh
        (Reachable.step Scheduler.initial .enableAuto Reachable.initial))).1,
   (scheduler_timers_recorded (manualRefresh (toggleAutoRefresh true Scheduler.initial))
      (Reachable.step _ .manualRefresh
        (Reachable.step Scheduler.initial .enableAuto Reachable.initial))).2.1⟩

set_option maxRecDepth 20000 in
/-- C19, the code at the failing input: on the fresh page a manual refresh at
time 0 runs the cycle and opens the cooldown; `toggleAutoRefresh` with the
toggle unchecked at 100 ms calls `cleanup`, which cancels the cooldown timer;
the manual refresh at 200 ms, inside the window of 1000 ms, then runs the
cycle a second time. Without the toggle the second click is ignored. -/
theorem cooldown_cut_short_by_toggle :
    (advance 100 (manualRefresh Scheduler.initial)).refreshTimeout = some 1 ∧
    (toggleAutoRefresh false (advance 100 (manualRefresh Scheduler.initial))).refreshTimeout
      = none ∧
    (manualRefresh (advance 100 (toggleAutoRefresh false
      (advance 100 (manualRefresh Scheduler.initial))))).now = 200 ∧
    (manualRefresh (advance 100 (toggleAutoRefresh false
      (advance 100 (manualRefresh Scheduler.initial))))).cycles = 2 ∧
    (manualRefresh (advance 100 (advance 100 (manualRefresh Scheduler.initial)))).cycles = 1 := by
  decide

/-! ## Theorems: backoff bound -/

theorem backoffBound_mono (r : Nat) : ∀ c d : Nat, c ≤ d → backoffBound r c ≤ backoffBound r d := by
  induction r with
  | zero => intro c d _; simp [backoffBound]
  | succ r ih =>
    intro c d h
    simp only [backoffBound]
    have := ih (c + 1) (d + 1) (by omega)
    have : RETRY_DELAY * (c + 1) ≤ RETRY_DELAY * (d + 1) := Nat.mul_le_mul_left _ (by omega)
    omega

theorem counterAfter_le (a : Attempt) (c : Nat) : a.counterAfter c ≤ c := by
  unfold Attempt.counterAfter
  split_ifs <;> omega

/-- The delays that a call appends to the trace add up to at most the bound
for its number of retries and the value of the counter at its start. -/
theorem fetchWithRetry_waits_bound (net : Nat → Attempt) (retries : Nat) :
    ∀ st : FetchState, ∃ l, (fetchWithRetry net retries st).2.waits = st.waits ++ l ∧
      l.sum ≤ backoffBound retries st.retryAttempts := by
  induction retries with
  | zero =>
    intro st
    cases hr : (net st.requests).result with
    | ok body =>
      rw [fetchWithRetry_ok net 0 st body (result_ok _ _ hr)]
      exact ⟨[], by simp, by simp⟩
    | error m =>
      rw [fetchWithRetry_exhausted net st m hr]
      exact ⟨[], by simp, by simp⟩
  | succ r ih =>
    intro st
    cases hr : (net st.requests).result with
    | ok body =>
      rw [fetchWithRetry_ok net (r + 1) st body (result_ok _ _ hr)]
      exact ⟨[], by simp, by simp⟩
    | error m =>
      rw [fetchWithRetry_retry net r st m hr]
      obtain ⟨l, hl, hsum⟩ := ih ⟨(net st.requests).counterAfter st.retryAttempts + 1,
        st.requests + 1,
        st.waits ++ [RETRY_DELAY * ((net st.requests).counterAfter st.retryAttempts + 1)]⟩
      refine ⟨RETRY_DELAY * ((net st.requests).counterAfter st.retryAttempts + 1) :: l,
        by rw [hl]; simp, ?_⟩
      simp only [List.sum_cons, backoffBound]
      simp only at hsum
      have hle := counterAfter_le (net st.requests) st.retryAttempts
      have h1 := backoffBound_mono r ((net st.requests).counterAfter st.retryAttempts + 1)
        (st.retryAttempts + 1) (by omega)
      have h2 : RETRY_DELAY * ((net st.requests).counterAfter st.retryAttempts + 1)
          ≤ RETRY_DELAY * (st.retryAttempts + 1) := Nat.mul_le_mul_left _ (by omega)
      omega

/-- C18, the claim as stated, fails: the counter `retryAttempts` is left at 3
by a call that exhausted its retries, and the next call on a network that is
still down waits 4000 + 5000 + 6000 = 15000 ms, more than 9000 ms. -/
theorem backoff_sum_exceeds_budget_counterexample :
    (callWaits allDown MAX_RETRY_ATTEMPTS
      (fetchWithRetry allDown MAX_RETRY_ATTEMPTS FetchState.initial).2).sum = 15000 ∧
    ¬ BackoffSumWithinBudget allDown
      (fetchWithRetry allDown MAX_RETRY_ATTEMPTS FetchState.initial).2 := by
  constructor
  · decide
  · unfold BackoffSumWithinBudget
    decide

/-! ## Theorems: refresh cycle -/

theorem displayError_cache (message context : String) (p : Page) :
    (displayError message context p).cache = p.cache := rfl

theorem updateSystemInfoUI_cache (data : JSVal) (clock : Clock) (p : Page) :
    (updateSystemInfoUI data clock p).cache = p.cache := rfl

theorem fetchNamespaces_cache (namespaces : Option (List String)) (infoOk : Bool) (p : Page) :
    (fetchNamespaces namespaces infoOk p).cache = p.cache := by
  unfold fetchNamespaces fetchKubernetesInfo
  cases namespaces with
  | none => rfl
  | some names =>
    simp only
    split_ifs <;> rfl

theorem fetchPodStatuses_cache (pods : Option (List Pod)) (simulated : PodStatusTally)
    (ns : String) (p : Page) : (fetchPodStatuses pods simulated ns p).cache = p.cache := by
  unfold fetchPodStatuses
  cases pods <;> rfl

/-- A failed `fetchSystemInfo` leaves the cache as it was and shows the error. -/
theorem fetchSystemInfo_error (net : Nat → Attempt) (now arrival : Int) (clock : Clock)
    (p : Page) (message : String)
    (h : (fetchSystemInfo net now arrival clock p).1 = .error message) :
    (fetchSystemInfo net now arrival clock p).2.cache = p.cache ∧
    (fetchSystemInfo net now arrival clock p).2.notifications
      = p.notifications ++
        [("Failed to fetch system metrics: " ++
            (if message = "" then "An unexpected error occurred" else message), "error")] := by
  unfold fetchSystemInfo at h ⊢
  simp only at h ⊢
  by_cases hc : (getCachedData p.cache "systemInfo" now).truthy = true
  · rw [if_pos hc] at h
    simp at h
  · rw [if_neg hc] at h ⊢
    cases hr : (fetchWithRetry net MAX_RETRY_ATTEMPTS p.fetch).1 with
    | error m =>
      rw [hr] at h
      simp only at h ⊢
      injection h with h
      subst h
      exact ⟨rfl, by simp [displayError]⟩
    | ok data =>
      rw [hr] at h
      simp only at h ⊢
      by_cases hv : (!data.truthy || !data.typeofObject) = true
      · rw [if_pos hv] at h ⊢
        injection h with h
        subst h
        exact ⟨rfl, by simp [displayError]⟩
      · rw [if_neg hv] at h ⊢
        cases hs : setCachedData p.cache "systemInfo" data arrival with
        | error m =>
          rw [hs] at h
          simp only at h ⊢
          injection h with h
          subst h
          exact ⟨rfl, by simp [displayError]⟩
        | ok c =>
          rw [hs] at h
          simp at h

theorem updateDashboard_cache (env : CycleEnv) (p : Page) :
    (updateDashboard env p).cache
      = (fetchSystemInfo env.net env.now env.arrival env.clock p).2.cache := by
  unfold updateDashboard
  simp only
  cases (fetchSystemInfo env.net env.now env.arrival env.clock p).1 <;>
    simp only [displayError_cache, fetchPodStatuses_cache, fetchNamespaces_cache]

/-- C16: whenever `fetchSystemInfo` fails in a refresh cycle, with the
aggregated error of exhausted retries or with the error of a response
rejected as invalid, the cache after the call, and after the whole cycle, is
the cache before it, so the `systemInfo` entry keeps its value, timestamp and
ttl; the error is shown as a notification, thrown again to the cycle, and
shown there too. -/
theorem fetchSystemInfo_failure_keeps_cache (env : CycleEnv) (p : Page) (message : String)
    (h : (fetchSystemInfo env.net env.now env.arrival env.clock p).1 = .error message) :
    (fetchSystemInfo env.net env.now env.arrival env.clock p).2.cache = p.cache ∧
    (fetchSystemInfo env.net env.now env.arrival env.clock p).2.cache.get "systemInfo"
      = p.cache.get "systemInfo" ∧
    (fetchSystemInfo env.net env.now env.arrival env.clock p).2.notifications
      = p.notifications ++
        [("Failed to fetch system metrics: " ++
            (if message = "" then "An unexpected error occurred" else message), "error")] ∧
    (updateDashboard env p).cache = p.cache ∧
    (updateDashboard env p).notifications.getLast?
      = some ("Dashboard update failed: " ++
          (if message = "" then "An unexpected error occurred" else message), "error") := by
  obtain ⟨h1, h2⟩ := fetchSystemInfo_error env.net env.now env.arrival env.clock p message h
  refine ⟨h1, by rw [h1], h2, by rw [updateDashboard_cache, h1], ?_⟩
  unfold updateDashboard
  simp only [h]
  simp [displayError]

/-- C16 on the fresh page: once with the network down (retries exhausted),
once with the response `5`, which is rejected as invalid. -/
theorem fetchSystemInfo_failure_keeps_cache_witness :
    (updateDashboard { healthyEnv 1000 1100 with net := allDown } Page.initial).cache
      = Page.initial.cache ∧
    (updateDashboard { healthyEnv 1000 1100 with net := fun _ => .ok (.num 5) }
      Page.initial).cache = Page.initial.cache :=
  ⟨(fetchSystemInfo_failure_keeps_cache { healthyEnv 1000 1100 with net := allDown }
      Page.initial "Failed after 3 attempts: Failed to fetch" (by rfl)).2.2.2.1,
   (fetchSystemInfo_failure_keeps_cache
      { healthyEnv 1000 1100 with net := fun _ => .ok (.num 5) }
      Page.initial "Invalid data received from server" (by rfl)).2.2.2.1⟩

/-- C17, the claim as stated, fails: the response `{}` has none of the
expected fields, yet on the fresh page `fetchSystemInfo` returns without an
error and stores it in the cache. -/
theorem fetchSystemInfo_stores_empty_object_counterexample :
    (fetchSystemInfo (fun _ => .ok (.obj [])) 1000 1100 ⟨12, 0, 0⟩ Page.initial).1 = .ok () ∧
    (fetchSystemInfo (fun _ => .ok (.obj [])) 1000 1100 ⟨12, 0, 0⟩ Page.initial).2.cache.get
        "systemInfo" = some ⟨.obj [], 1100, 5000⟩ ∧
    ¬ RejectsMissingFields (.obj []) 1000 1100 ⟨12, 0, 0⟩ Page.initial := by
  refine ⟨by rfl, by rfl, ?_⟩
  intro hrej
  obtain ⟨⟨m, hm⟩, _⟩ := hrej (by rfl)
  have hok : (fetchSystemInfo (fun _ => .ok (.obj [])) 1000 1100 ⟨12, 0, 0⟩ Page.initial).1
      = .ok () := by rfl
  rw [hok] at hm
  exact absurd hm (by simp)

/-- C17 (amended): on a cache miss, when the request is answered by a parsed
body `data`, `fetchSystemInfo` checks only that `data` is an object: a body
that is falsy or not of type object (null, a boolean, a number, a string) is
answered by the error "Invalid data received from server" and is not stored;
an object or array is stored under `systemInfo` with the time of arrival and
the ttl of the entry, whatever fields it has, and no error is raised. -/
theorem fetchSystemInfo_validates_object_only (net : Nat → Attempt) (data : JSVal)
    (now arrival : Int) (clock : Clock) (p : Page)
    (hmiss : (getCachedData p.cache "systemInfo" now).truthy = false)
    (hresp : net p.fetch.requests = .ok data) :
    ((data.truthy = false ∨ data.typeofObject = false) →
      (fetchSystemInfo net now arrival clock p).1 = .error "Invalid data received from server" ∧
      (fetchSystemInfo net now arrival clock p).2.cache = p.cache) ∧
    (data.truthy = true → data.typeofObject = true →
      ∀ old, p.cache.get "systemInfo" = some old →
        (fetchSystemInfo net now arrival clock p).1 = .ok () ∧
        (fetchSystemInfo net now arrival clock p).2.cache
          = p.cache.put "systemInfo" ⟨data, arrival, old.ttl⟩) := by
  have hf := fetchWithRetry_ok net MAX_RETRY_ATTEMPTS p.fetch data hresp
  constructor
  · intro hbad
    have hv : (!data.truthy || !data.typeofObject) = true := by
      rcases hbad with h1 | h1 <;> simp [h1]
    unfold fetchSystemInfo
    simp only [hmiss, hf, hv]
    exact ⟨by simp, by simp [displayError]⟩
  · intro ht ho old hold
    have hv : ¬ (!data.truthy || !data.typeofObject) = true := by simp [ht, ho]
    have hs : setCachedData p.cache "systemInfo" data arrival
        = .ok (p.cache.put "systemInfo" ⟨data, arrival, old.ttl⟩) := by
      simp [setCachedData, hold]
    unfold fetchSystemInfo
    simp only [hmiss, hf, hv, hs]
    exact ⟨by simp, by simp [updateSystemInfoUI]⟩

/-- C17 (amended) on the fresh page: the response `{}` is stored. -/
theorem fetchSystemInfo_validates_object_only_witness :
    (fetchSystemInfo (fun _ => .ok (.obj [])) 1000 1100 ⟨12, 0, 0⟩ Page.initial).1 = .ok () ∧
    (fetchSystemInfo (fun _ => .ok (.obj [])) 1000 1100 ⟨12, 0, 0⟩ Page.initial).2.cache
      = Page.initial.cache.put "systemInfo" ⟨.obj [], 1100, 5000⟩ :=
  (fetchSystemInfo_validates_object_only (fun _ => .ok (.obj [])) (.obj []) 1000 1100 ⟨12, 0, 0⟩
    Page.initial (by rfl) (by rfl)).2 (by rfl) (by rfl) ⟨.null, 0, 5000⟩ (by rfl)

theorem fetchSystemInfo_requestLog (net : Nat → Attempt) (now arrival : Int) (clock : Clock)
    (p : Page) :
    ∃ l, (fetchSystemInfo net now arrival clock p).2.requestLog = p.requestLog ++ l := by
  unfold fetchSystemInfo
  simp only
  split_ifs
  · exact ⟨[], by simp [updateSystemInfoUI]⟩
  · split
    · exact ⟨_, rfl⟩
    · split_ifs
      · exact ⟨_, rfl⟩
      · split
        · exact ⟨_, rfl⟩
        · exact ⟨_, rfl⟩

theorem fetchKubernetesInfo_requestLog (ok : Bool) (ns : String) (p : Page) :
    (fetchKubernetesInfo ok ns p).requestLog
      = p.requestLog ++ ["/kubernetes_info?namespace=" ++ ns] := by
  unfold fetchKubernetesInfo
  simp only
  split_ifs <;> rfl

theorem fetchNamespaces_requestLog (namespaces : Option (List String)) (infoOk : Bool)
    (p : Page) :
    ∃ l, (fetchNamespaces namespaces infoOk p).requestLog
      = p.requestLog ++ "/kubernetes_namespaces" :: l := by
  cases namespaces with
  | none => exact ⟨[], rfl⟩
  | some names =>
    simp only [fetchNamespaces, fetchKubernetesInfo_requestLog]
    split_ifs <;> simp

theorem fetchPodStatuses_requestLog (pods : Option (List Pod)) (simulated : PodStatusTally)
    (ns : String) (p : Page) :
    ∃ l, (fetchPodStatuses pods simulated ns p).requestLog
      = p.requestLog ++ ("/pods?namespace=" ++ ns) :: l := by
  unfold fetchPodStatuses
  cases pods with
  | none => exact ⟨["/pods?namespace=" ++ ns], by simp⟩
  | some ps => exact ⟨[], rfl⟩

/-- The namespaces and pods requests are part of every cycle. -/
theorem cycleRequests_mem (env : CycleEnv) (p : Page) :
    "/kubernetes_namespaces" ∈ cycleRequests env p ∧
    ("/pods?namespace=" ++ p.defaultNamespace) ∈ cycleRequests env p := by
  obtain ⟨l1, h1⟩ := fetchSystemInfo_requestLog env.net env.now env.arrival env.clock p
  obtain ⟨l2, h2⟩ := fetchNamespaces_requestLog env.namespaces env.infoOk
    (fetchSystemInfo env.net env.now env.arrival env.clock p).2
  obtain ⟨l3, h3⟩ := fetchPodStatuses_requestLog env.pods env.simulated p.defaultNamespace
    (fetchNamespaces env.namespaces env.infoOk
      (fetchSystemInfo env.net env.now env.arrival env.clock p).2)
  have hlog : (updateDashboard env p).requestLog
      = p.requestLog ++ (l1 ++ "/kubernetes_namespaces" :: l2
          ++ ("/pods?namespace=" ++ p.defaultNamespace) :: l3) := by
    have hd : (updateDashboard env p).requestLog
        = (fetchPodStatuses env.pods env.simulated p.defaultNamespace
            (fetchNamespaces env.namespaces env.infoOk
              (fetchSystemInfo env.net env.now env.arrival env.clock p).2)).requestLog := by
      unfold updateDashboard
      simp only
      cases (fetchSystemInfo env.net env.now env.arrival env.clock p).1 <;> rfl
    rw [hd, h3, h2, h1]
    simp
  unfold cycleRequests
  rw [hlog, List.drop_left]
  simp

/-- C20, the code at the failing input: after a first cycle at time 1000 in
which every request succeeds, the cycle at time 2000 takes the system info
from the cache and sends no `/system_info` request, but it sends the
namespaces, namespace info and pods requests again, although 1000 ms is less
than their ttl of 30000 and 10000 ms; the first cycle has left the cache
entries `namespaces` and `podStatuses` as they were at construction. In every
cycle the namespaces and pods requests are sent, whatever the cache holds. -/
theorem cycle_refetches_uncached_datasets :
    cycleRequests (healthyEnv 2000 2100) (updateDashboard (healthyEnv 1000 1100) Page.initial)
      = ["/kubernetes_namespaces", "/kubernetes_info?namespace=default",
          "/pods?namespace=default"] ∧
    ((updateDashboard (healthyEnv 1000 1100) Page.initial).cache.get "namespaces").map
        (fun e => (e.data.truthy, e.timestamp, e.ttl)) = some (false, 0, 30000) ∧
    ((updateDashboard (healthyEnv 1000 1100) Page.initial).cache.get "podStatuses").map
        (fun e => (e.data.truthy, e.timestamp, e.ttl)) = some (false, 0, 10000) ∧
    ∀ (env : CycleEnv) (p : Page),
      "/kubernetes_namespaces" ∈ cycleRequests env p ∧
      ("/pods?namespace=" ++ p.defaultNamespace) ∈ cycleRequests env p := by
  exact ⟨by decide, by decide, by decide, cycleRequests_mem⟩

/-! ## Theorems: exhaustion of the retrying fetcher -/

/-- When no attempt of the call gets a response with `ok` true, the counter
ends `retries` higher than it started. -/
theorem fetchWithRetry_counter_no_response (net : Nat → Attempt) (retries : Nat)
    (st : FetchState)
    (hfail : ∀ i, i ≤ retries → (net (st.requests + i)).noOkResponse = true) :
    (fetchWithRetry net retries st).2.retryAttempts = st.retryAttempts + retries := by
  rw [fetchWithRetry_after_no_response net retries retries st (le_refl _)
    (fun i hi => hfail i (by omega)), Nat.sub_self]
  have hlast := hfail retries (le_refl _)
  have hf : (net (st.requests + retries)).failed = true := by
    cases hn : net (st.requests + retries) <;> simp_all [Attempt.noOkResponse, Attempt.failed]
  obtain ⟨m, hm⟩ := failed_result _ hf
  rw [fetchWithRetry_exhausted net _ m hm]
  simp [Attempt.counterAfter, hlast]

/-- C21, the claim as stated, fails: when every attempt gets a response with
`ok` true whose body does not parse, every attempt fails and the call with
`retries = 3` makes its 4 requests and 3 waits and rejects, but each response
resets `retryAttempts` before the failure is counted, and the counter ends at
0, not 3 higher than it started. -/
theorem counter_reset_by_unparsable_counterexample :
    (∀ i, (allUnparsable i).failed = true) ∧
    (fetchWithRetry allUnparsable MAX_RETRY_ATTEMPTS FetchState.initial).2.requests = 4 ∧
    (fetchWithRetry allUnparsable MAX_RETRY_ATTEMPTS FetchState.initial).2.waits
      = [1000, 1000, 1000] ∧
    (fetchWithRetry allUnparsable MAX_RETRY_ATTEMPTS FetchState.initial).2.retryAttempts = 0 ∧
    ¬ CounterRaisedByRetries allUnparsable MAX_RETRY_ATTEMPTS FetchState.initial := by
  refine ⟨fun _ => rfl, by decide, by decide, by decide, ?_⟩
  unfold CounterRaisedByRetries
  decide

/-! ## Theorems: image scan form -/

/-- A string that matches a regular expression is made of characters that
occur in the expression. -/
theorem matches_regexChars (r : RegularExpression Char) :
    ∀ x : List Char, x ∈ r.matches' → ∀ c ∈ x, c ∈ regexChars r := by
  induction r with
  | zero => intro x hx; simp [RegularExpression.matches'] at hx
  | epsilon =>
    intro x hx c hc
    simp only [RegularExpression.matches', Language.mem_one] at hx
    subst hx
    simp at hc
  | char a =>
    intro x hx c hc
    simp only [RegularExpression.matches'] at hx
    have hx2 : x = [a] := hx
    subst hx2
    simpa [regexChars] using hc
  | plus P Q ihP ihQ =>
    intro x hx c hc
    simp only [RegularExpression.matches', Language.mem_add] at hx
    simp only [regexChars, List.mem_append]
    rcases hx with h | h
    · exact Or.inl (ihP x h c hc)
    · exact Or.inr (ihQ x h c hc)
  | comp P Q ihP ihQ =>
    intro x hx c hc
    simp only [RegularExpression.matches', Language.mem_mul] at hx
    obtain ⟨a, ha, b, hb, hab⟩ := hx
    subst hab
    simp only [regexChars, List.mem_append] at hc ⊢
    rcases hc with h | h
    · exact Or.inl (ihP a ha c h)
    · exact Or.inr (ihQ b hb c h)
  | star P ih =>
    intro x hx c hc
    simp only [RegularExpression.matches', Language.mem_kstar] at hx
    obtain ⟨L, hL, hall⟩ := hx
    subst hL
    simp only [List.mem_flatten] at hc
    obtain ⟨y, hy, hcy⟩ := hc
    exact ih y (hall y hy) c hcy

set_option maxRecDepth 100000 in
theorem imageNamePattern_chars :
    ∀ c ∈ regexChars imageNamePattern, c ∉ strippedChars := by
  decide

/-- A name that passes the format check has none of the stripped characters. -/
theorem test_no_stripped (s : String) (h : test imageNamePattern s = true) :
    ∀ c ∈ s.data, c ∉ strippedChars := by
  intro c hc
  have hm : s.data ∈ imageNamePattern.matches' :=
    (RegularExpression.rmatch_iff_matches' imageNamePattern s.data).mp h
  exact imageNamePattern_chars c (matches_regexChars imageNamePattern s.data hm c hc)

theorem sanitize_eq_self (s : String) (h : ∀ c ∈ s.data, c ∉ strippedChars) :
    sanitize s = s := by
  unfold sanitize
  have : s.data.filter (fun c => !(strippedChars.contains c)) = s.data := by
    rw [List.filter_eq_self]
    intro c hc
    simpa using h c hc
  rw [this]

/-- C22: an image name that passes the format check of line 508 contains none
of the characters less-than, greater-than, double quote and single quote; so
the sanitised name equals the name, `scanImage` is called with exactly the
trimmed input, and for no input at all does `handleImageScan` end in the
branch "Invalid characters detected in image name". -/
theorem handleImageScan_sanitize_is_identity (value : String) :
    (test imageNamePattern (trim value) = true →
      (∀ c ∈ (trim value).data, c ∉ strippedChars) ∧
      sanitize (trim value) = trim value ∧
      handleImageScan value = .scanning (trim value)) ∧
    handleImageScan value ≠ .rejected "Invalid characters detected in image name" := by
  constructor
  · intro ht
    have hno := test_no_stripped (trim value) ht
    have hs := sanitize_eq_self (trim value) hno
    refine ⟨hno, hs, ?_⟩
    · have hne : trim value ≠ "" := by
        intro he
        rw [he] at ht
        revert ht
        decide
      unfold handleImageScan
      simp only [hne, ht, hs]
      simp
  · unfold handleImageScan
    simp only
    by_cases he : trim value = ""
    · rw [if_pos he]
      decide
    · rw [if_neg he]
      by_cases ht : test imageNamePattern (trim value) = true
      · have hs := sanitize_eq_self (trim value) (test_no_stripped (trim value) ht)
        simp [ht, hs]
      · have hf : test imageNamePattern (trim value) = false := by simpa using ht
        rw [hf]
        simp only [Bool.not_false, if_true]
        exact fun h => absurd (ScanOutcome.rejected.inj h) (by decide)

/-- C22 on the input ` a/b:1.0 ` with blanks around it. -/
theorem handleImageScan_sanitize_is_identity_witness :
    handleImageScan " a/b:1.0 " = .scanning "a/b:1.0" :=
  ((handleImageScan_sanitize_is_identity " a/b:1.0 ").1 (by decide)).2.2

/-! ## Theorems: retrying fetcher among other calls -/

theorem tryBlockShared_fst (net : Nat → Attempt) (others : Nat → Interference)
    (st : FetchState) : (tryBlockShared net others st).1 = (net st.requests).result := by
  unfold tryBlockShared
  cases net st.requests <;> rfl

theorem tryBlockShared_snd (net : Nat → Attempt) (others : Nat → Interference)
    (st : FetchState) :
    (tryBlockShared net others st).2 =
      ⟨counterFound (net st.requests) (others st.requests) st.retryAttempts,
        st.requests + 1, st.waits⟩ := by
  unfold tryBlockShared counterFound
  cases net st.requests <;> rfl

theorem fetchWithRetryShared_ok (net : Nat → Attempt) (others : Nat → Interference)
    (retries : Nat) (st : FetchState) (body : JSVal) (h : net st.requests = .ok body) :
    fetchWithRetryShared net others retries st
      = (.ok body, ⟨(others st.requests).duringParse 0, st.requests + 1, st.waits⟩) := by
  have h1 : tryBlockShared net others st
      = (.ok body, ⟨(others st.requests).duringParse 0, st.requests + 1, st.waits⟩) := by
    simp [tryBlockShared, h]
  cases retries <;> simp [fetchWithRetryShared, h1]

theorem fetchWithRetryShared_retry (net : Nat → Attempt) (others : Nat → Interference)
    (r : Nat) (st : FetchState) (m : String) (h : (net st.requests).result = .error m) :
    fetchWithRetryShared net others (r + 1) st =
      fetchWithRetryShared net others r
        ⟨(others st.requests).duringWait
            (counterFound (net st.requests) (others st.requests) st.retryAttempts + 1),
          st.requests + 1,
          st.waits ++ [RETRY_DELAY *
            (counterFound (net st.requests) (others st.requests) st.retryAttempts + 1)]⟩ := by
  have h1 := tryBlockShared_fst net others st
  have h2 := tryBlockShared_snd net others st
  rw [h] at h1
  rw [fetchWithRetryShared]
  rcases hb : tryBlockShared net others st with ⟨res, st1⟩
  rw [hb] at h1 h2
  simp only at h1 h2
  subst h1
  subst h2
  simp

theorem fetchWithRetryShared_exhausted (net : Nat → Attempt) (others : Nat → Interference)
    (st : FetchState) (m : String) (h : (net st.requests).result = .error m) :
    fetchWithRetryShared net others 0 st =
      (.error ("Failed after 3 attempts: " ++ m),
        ⟨counterFound (net st.requests) (others st.requests) st.retryAttempts,
          st.requests + 1, st.waits⟩) := by
  have h1 := tryBlockShared_fst net others st
  have h2 := tryBlockShared_snd net others st
  rw [h] at h1
  rw [fetchWithRetryShared]
  rcases hb : tryBlockShared net others st with ⟨res, st1⟩
  rw [hb] at h1 h2
  simp only at h1 h2
  subst h1
  subst h2
  simp only [toString_max]
  rfl

theorem counterFound_quiet (a : Attempt) (o : Interference) (c : Nat) (h : o.Quiet) :
    counterFound a o c = a.counterAfter c := by
  unfold counterFound Attempt.counterAfter
  rw [h.1 c, h.2.1 0]

/-- Among other calls that leave the counter alone around every attempt of the
call, the call runs as it does on its own. -/
theorem fetchWithRetryShared_quiet (net : Nat → Attempt) (others : Nat → Interference)
    (retries : Nat) : ∀ st : FetchState,
    (∀ i, i ≤ retries → (others (st.requests + i)).Quiet) →
    fetchWithRetryShared net others retries st = fetchWithRetry net retries st := by
  induction retries with
  | zero =>
    intro st hq
    have h0 : (others st.requests).Quiet := by simpa using hq 0 (le_refl _)
    cases hr : (net st.requests).result with
    | ok body =>
      rw [fetchWithRetryShared_ok net others 0 st body (result_ok _ _ hr),
        fetchWithRetry_ok net 0 st body (result_ok _ _ hr), h0.2.1 0]
    | error m =>
      rw [fetchWithRetryShared_exhausted net others st m hr,
        fetchWithRetry_exhausted net st m hr, counterFound_quiet _ _ _ h0]
  | succ r ih =>
    intro st hq
    have h0 : (others st.requests).Quiet := by simpa using hq 0 (by omega)
    cases hr : (net st.requests).result with
    | ok body =>
      rw [fetchWithRetryShared_ok net others (r + 1) st body (result_ok _ _ hr),
        fetchWithRetry_ok net (r + 1) st body (result_ok _ _ hr), h0.2.1 0]
    | error m =>
      rw [fetchWithRetryShared_retry net others r st m hr,
        fetchWithRetry_retry net r st m hr, counterFound_quiet _ _ _ h0, h0.2.2]
      apply ih
      intro i hi
      have := hq (i + 1) (by omega)
      simpa [Nat.add_assoc, Nat.add_comm 1 i] using this

/-- Whatever the other calls do to the counter, the outcome of the call, the
number of its requests and the number of its waits are those of the call on
its own. -/
theorem fetchWithRetryShared_outcome (net : Nat → Attempt) (others : Nat → Interference)
    (retries : Nat) : ∀ st st2 : FetchState,
    st.requests = st2.requests → st.waits.length = st2.waits.length →
    (fetchWithRetryShared net others retries st).1 = (fetchWithRetry net retries st2).1 ∧
    (fetchWithRetryShared net others retries st).2.requests
      = (fetchWithRetry net retries st2).2.requests ∧
    (fetchWithRetryShared net others retries st).2.waits.length
      = (fetchWithRetry net retries st2).2.waits.length := by
  induction retries with
  | zero =>
    intro st st2 hreq hw
    cases hr : (net st.requests).result with
    | ok body =>
      rw [fetchWithRetryShared_ok net others 0 st body (result_ok _ _ hr),
        fetchWithRetry_ok net 0 st2 body (result_ok _ _ (hreq ▸ hr))]
      exact ⟨rfl, by simp [hreq], by simp [hw]⟩
    | error m =>
      rw [fetchWithRetryShared_exhausted net others st m hr,
        fetchWithRetry_exhausted net st2 m (hreq ▸ hr)]
      exact ⟨rfl, by simp [hreq], by simp [hw]⟩
  | succ r ih =>
    intro st st2 hreq hw
    cases hr : (net st.requests).result with
    | ok body =>
      rw [fetchWithRetryShared_ok net others (r + 1) st body (result_ok _ _ hr),
        fetchWithRetry_ok net (r + 1) st2 body (result_ok _ _ (hreq ▸ hr))]
      exact ⟨rfl, by simp [hreq], by simp [hw]⟩
    | error m =>
      rw [fetchWithRetryShared_retry net others r st m hr,
        fetchWithRetry_retry net r st2 m (hreq ▸ hr)]
      apply ih
      · simp [hreq]
      · simp [hw]

/-- The trace of delays only grows, also among other calls. -/
theorem fetchWithRetryShared_waits_extend (net : Nat → Attempt)
    (others : Nat → Interference) (retries : Nat) :
    ∀ st : FetchState, ∃ l,
      (fetchWithRetryShared net others retries st).2.waits = st.waits ++ l := by
  induction retries with
  | zero =>
    intro st
    cases hr : (net st.requests).result with
    | ok body =>
      rw [fetchWithRetryShared_ok net others 0 st body (result_ok _ _ hr)]
      exact ⟨[], by simp⟩
    | error m =>
      rw [fetchWithRetryShared_exhausted net others st m hr]
      exact ⟨[], by simp⟩
  | succ r ih =>
    intro st
    cases hr : (net st.requests).result with
    | ok body =>
      rw [fetchWithRetryShared_ok net others (r + 1) st body (result_ok _ _ hr)]
      exact ⟨[], by simp⟩
    | error m =>
      rw [fetchWithRetryShared_retry net others r st m hr]
      obtain ⟨l, hl⟩ := ih ⟨(others st.requests).duringWait
          (counterFound (net st.requests) (others st.requests) st.retryAttempts + 1),
        st.requests + 1,
        st.waits ++ [RETRY_DELAY *
          (counterFound (net st.requests) (others st.requests) st.retryAttempts + 1)]⟩
      rw [hl]
      exact ⟨RETRY_DELAY *
        (counterFound (net st.requests) (others st.requests) st.retryAttempts + 1) :: l,
        by simp⟩

/-- While no response with `ok` true arrives and no other call changes the
counter, it goes up by one per failure and each wait is `RETRY_DELAY` times
the counter. -/
theorem fetchWithRetryShared_after_no_response (net : Nat → Attempt)
    (others : Nat → Interference) (k : Nat) :
    ∀ (retries : Nat) (st : FetchState), k ≤ retries →
      (∀ i, i < k → (net (st.requests + i)).noOkResponse = true) →
      (∀ i, i < k → (others (st.requests + i)).Quiet) →
      fetchWithRetryShared net others retries st =
        fetchWithRetryShared net others (retries - k)
          ⟨st.retryAttempts + k, st.requests + k,
            st.waits ++ (List.range k).map (fun j => RETRY_DELAY * (st.retryAttempts + j + 1))⟩ := by
  induction k with
  | zero => intro retries st _ _ _; simp
  | succ k ih =>
    intro retries st hk hfail hq
    obtain ⟨r, rfl⟩ : ∃ r, retries = r + 1 := ⟨retries - 1, by omega⟩
    have h0 : (net st.requests).noOkResponse = true := by
      have := hfail 0 (by omega)
      simpa using this
    have hq0 : (others st.requests).Quiet := by simpa using hq 0 (by omega)
    have hf : (net st.requests).failed = true := by
      cases hn : net st.requests <;> simp_all [Attempt.noOkResponse, Attempt.failed]
    obtain ⟨m, hm⟩ := failed_result _ hf
    rw [fetchWithRetryShared_retry net others r st m hm]
    have hc : counterFound (net st.requests) (others st.requests) st.retryAttempts
        = st.retryAttempts := by
      simp [counterFound, h0, hq0.1]
    rw [hc, hq0.2.2]
    rw [ih r ⟨st.retryAttempts + 1, st.requests + 1,
        st.waits ++ [RETRY_DELAY * (st.retryAttempts + 1)]⟩ (by omega)
      (fun i hi => by
        have := hfail (i + 1) (by omega)
        simpa [Nat.add_assoc, Nat.add_comm 1 i] using this)
      (fun i hi => by
        have := hq (i + 1) (by omega)
        simpa [Nat.add_assoc, Nat.add_comm 1 i] using this)]
    have hrange : (List.range (k + 1)).map (fun j => RETRY_DELAY * (st.retryAttempts + j + 1))
        = RETRY_DELAY * (st.retryAttempts + 1)
          :: (List.range k).map (fun j => RETRY_DELAY * (st.retryAttempts + 1 + j + 1)) := by
      rw [List.range_succ_eq_map, List.map_cons, List.map_map]
      simp only [Nat.add_zero, List.cons.injEq, true_and]
      apply List.map_congr_left
      intro j _
      simp only [Function.comp, Nat.succ_eq_add_one]
      congr 2
      omega
    rw [hrange]
    simp [Nat.add_assoc, Nat.add_comm 1 k]

/-- Two failing calls that overlap: this call, entered with the counter at 0
on a network that is down, waits 1000, 3000 and 5000 ms, 9000 ms in all, and
the counter is 6 when it rejects. -/
theorem overlappingCall_waits :
    callWaitsShared allDown overlappingCall MAX_RETRY_ATTEMPTS FetchState.initial
      = [1000, 3000, 5000] ∧
    (callWaitsShared allDown overlappingCall MAX_RETRY_ATTEMPTS FetchState.initial).sum = 9000 ∧
    (fetchWithRetryShared allDown overlappingCall MAX_RETRY_ATTEMPTS
      FetchState.initial).2.retryAttempts = 6 := by
  decide

theorem noInterference_quiet (i : Nat) : (noInterference i).Quiet :=
  ⟨fun _ => rfl, fun _ => rfl, fun _ => rfl⟩

/-- C6 (amended): the wait before a retry is `RETRY_DELAY` times the value of
the shared counter `retryAttempts` right after the increment for this
failure, and the counter is the one variable of all calls: the increment is
applied to the value that the earlier calls and the calls in flight have left
(or to the 0 written by a response with `ok` true). So the wait after the
k-th failure is `RETRY_DELAY * (c + k)` for a call entered with the counter at
`c` whose first `k` attempts get no `ok` response (`1 ≤ k ≤ retries`) while no
other call changes the counter during these attempts and their waits; it is
`RETRY_DELAY * k` when moreover `c = 0`. -/
theorem sharedCounter_wait_after_failure (net : Nat → Attempt) (others : Nat → Interference)
    (retries : Nat) (st : FetchState) :
    (∀ r m, retries = r + 1 → (net st.requests).result = .error m →
      (callWaitsShared net others retries st)[0]?
        = some (RETRY_DELAY *
            (counterFound (net st.requests) (others st.requests) st.retryAttempts + 1))) ∧
    (∀ k, 1 ≤ k → k ≤ retries →
      (∀ i, i < k → (net (st.requests + i)).noOkResponse = true) →
      (∀ i, i < k → (others (st.requests + i)).Quiet) →
      (callWaitsShared net others retries st)[k - 1]?
          = some (RETRY_DELAY * (st.retryAttempts + k)) ∧
      (st.retryAttempts = 0 →
        (callWaitsShared net others retries st)[k - 1]? = some (RETRY_DELAY * k))) := by
  constructor
  · intro r m hr hm
    subst hr
    unfold callWaitsShared
    rw [fetchWithRetryShared_retry net others r st m hm]
    obtain ⟨l, hl⟩ := fetchWithRetryShared_waits_extend net others r
      ⟨(others st.requests).duringWait
          (counterFound (net st.requests) (others st.requests) st.retryAttempts + 1),
        st.requests + 1,
        st.waits ++ [RETRY_DELAY *
          (counterFound (net st.requests) (others st.requests) st.retryAttempts + 1)]⟩
    rw [hl]
    simp
  · intro k hk1 hk hfail hq
    have main : (callWaitsShared net others retries st)[k - 1]?
        = some (RETRY_DELAY * (st.retryAttempts + k)) := by
      unfold callWaitsShared
      rw [fetchWithRetryShared_after_no_response net others k retries st hk hfail hq]
      obtain ⟨l, hl⟩ := fetchWithRetryShared_waits_extend net others (retries - k)
        ⟨st.retryAttempts + k, st.requests + k,
          st.waits ++ (List.range k).map (fun j => RETRY_DELAY * (st.retryAttempts + j + 1))⟩
      rw [hl]
      simp only [List.append_assoc, List.drop_left]
      rw [List.getElem?_append_left (by simp; omega)]
      rw [List.getElem?_map, List.getElem?_range (by omega)]
      simp only [Option.map_some', Option.some.injEq]
      congr 1
      omega
    refine ⟨main, fun h0 => ?_⟩
    rw [main, h0, Nat.zero_add]

/-- C6 (amended) after an exhausted call and with no other call in flight: the
counter is 3 and the wait after the second failure of the next call is 5000
ms. -/
theorem sharedCounter_wait_after_failure_witness :
    (callWaitsShared allDown noInterference MAX_RETRY_ATTEMPTS ⟨3, 4, [1000, 2000, 3000]⟩)[2 - 1]?
      = some (RETRY_DELAY * (3 + 2)) :=
  ((sharedCounter_wait_after_failure allDown noInterference MAX_RETRY_ATTEMPTS
    ⟨3, 4, [1000, 2000, 3000]⟩).2 2 (by decide) (by decide) (fun _ _ => rfl)
    (fun _ _ => noInterference_quiet _)).1

theorem backoffBoundShared_mono (r e : Nat) :
    ∀ c d : Nat, c ≤ d → backoffBoundShared r c e ≤ backoffBoundShared r d e := by
  induction r with
  | zero => intro c d _; simp [backoffBoundShared]
  | succ r ih =>
    intro c d h
    simp only [backoffBoundShared]
    have := ih (c + 2 * e + 1) (d + 2 * e + 1) (by omega)
    have : RETRY_DELAY * (c + e + 1) ≤ RETRY_DELAY * (d + e + 1) :=
      Nat.mul_le_mul_left _ (by omega)
    omega

theorem counterFound_le (a : Attempt) (o : Interference) (c e : Nat) (h : o.RaisesAtMost e) :
    counterFound a o c ≤ c + e := by
  unfold counterFound
  split_ifs
  · exact (h c).1
  · have := (h 0).2.1
    omega

theorem quiet_raisesAtMost (o : Interference) (h : o.Quiet) : o.RaisesAtMost 0 := by
  intro c
  rw [h.1 c, h.2.1 c, h.2.2 c]
  simp

/-- Among calls that raise the counter by at most `e` during each suspension,
the delays that a call appends to the trace add up to at most the bound for
its number of retries and the value of the counter at its start. -/
theorem fetchWithRetryShared_waits_bound (net : Nat → Attempt) (others : Nat → Interference)
    (e retries : Nat) : ∀ st : FetchState,
    (∀ i, i ≤ retries → (others (st.requests + i)).RaisesAtMost e) →
    ∃ l, (fetchWithRetryShared net others retries st).2.waits = st.waits ++ l ∧
      l.sum ≤ backoffBoundShared retries st.retryAttempts e := by
  induction retries with
  | zero =>
    intro st _
    cases hr : (net st.requests).result with
    | ok body =>
      rw [fetchWithRetryShared_ok net others 0 st body (result_ok _ _ hr)]
      exact ⟨[], by simp, by simp⟩
    | error m =>
      rw [fetchWithRetryShared_exhausted net others st m hr]
      exact ⟨[], by simp, by simp⟩
  | succ r ih =>
    intro st hb
    cases hr : (net st.requests).result with
    | ok body =>
      rw [fetchWithRetryShared_ok net others (r + 1) st body (result_ok _ _ hr)]
      exact ⟨[], by simp, by simp⟩
    | error m =>
      have hb0 : (others st.requests).RaisesAtMost e := by simpa using hb 0 (by omega)
      have hfound := counterFound_le (net st.requests) (others st.requests) st.retryAttempts e hb0
      have hwait := (hb0
        (counterFound (net st.requests) (others st.requests) st.retryAttempts + 1)).2.2
      rw [fetchWithRetryShared_retry net others r st m hr]
      obtain ⟨l, hl, hsum⟩ := ih ⟨(others st.requests).duringWait
          (counterFound (net st.requests) (others st.requests) st.retryAttempts + 1),
        st.requests + 1,
        st.waits ++ [RETRY_DELAY *
          (counterFound (net st.requests) (others st.requests) st.retryAttempts + 1)]⟩
        (fun i hi => by
          have := hb (i + 1) (by omega)
          simpa [Nat.add_assoc, Nat.add_comm 1 i] using this)
      refine ⟨RETRY_DELAY *
        (counterFound (net st.requests) (others st.requests) st.retryAttempts + 1) :: l,
        by rw [hl]; simp, ?_⟩
      simp only [List.sum_cons, backoffBoundShared]
      simp only at hsum
      have h1 := backoffBoundShared_mono r e _ (st.retryAttempts + 2 * e + 1)
        (show (others st.requests).duringWait
          (counterFound (net st.requests) (others st.requests) st.retryAttempts + 1)
            ≤ st.retryAttempts + 2 * e + 1 by omega)
      have h2 : RETRY_DELAY *
          (counterFound (net st.requests) (others st.requests) st.retryAttempts + 1)
          ≤ RETRY_DELAY * (st.retryAttempts + e + 1) := Nat.mul_le_mul_left _ (by omega)
      omega

/-- C18 (amended): for every call with the default budget, entered with the
shared counter `retryAttempts` at `c`, among other calls that raise the
counter by at most `e` during each suspension of this call, the delays waited
during the call add up to at most `RETRY_DELAY * (3 * c + 9 * e + 6)` ms. With
no other call raising the counter (`e = 0`) this is `RETRY_DELAY * (3 * c + 6)`
ms, and 6000 ms, within the 9000 ms of the spec, when moreover the call is
entered with the counter at zero. -/
theorem sharedCounter_backoff_sum (net : Nat → Attempt) (others : Nat → Interference)
    (st : FetchState) (e : Nat)
    (hraise : ∀ i, i ≤ MAX_RETRY_ATTEMPTS → (others (st.requests + i)).RaisesAtMost e) :
    (callWaitsShared net others MAX_RETRY_ATTEMPTS st).sum
      ≤ RETRY_DELAY * (3 * st.retryAttempts + 9 * e + 6) ∧
    (e = 0 → (callWaitsShared net others MAX_RETRY_ATTEMPTS st).sum
      ≤ RETRY_DELAY * (3 * st.retryAttempts + 6)) ∧
    (e = 0 → st.retryAttempts = 0 →
      (callWaitsShared net others MAX_RETRY_ATTEMPTS st).sum ≤ 6000 ∧
      (callWaitsShared net others MAX_RETRY_ATTEMPTS st).sum
        ≤ MAX_RETRY_ATTEMPTS * RETRY_DELAY * MAX_RETRY_ATTEMPTS) := by
  obtain ⟨l, hl, hsum⟩ :=
    fetchWithRetryShared_waits_bound net others e MAX_RETRY_ATTEMPTS st hraise
  have hcw : callWaitsShared net others MAX_RETRY_ATTEMPTS st = l := by
    unfold callWaitsShared
    rw [hl]
    simp
  have hb : backoffBoundShared MAX_RETRY_ATTEMPTS st.retryAttempts e
      = RETRY_DELAY * (3 * st.retryAttempts + 9 * e + 6) := by
    simp only [MAX_RETRY_ATTEMPTS, backoffBoundShared, RETRY_DELAY]
    omega
  rw [hcw]
  rw [hb] at hsum
  refine ⟨hsum, fun h0 => ?_, fun h0 hc => ?_⟩
  · rw [h0] at hsum
    simpa using hsum
  · rw [h0, hc] at hsum
    simp only [RETRY_DELAY, MAX_RETRY_ATTEMPTS] at hsum ⊢
    omega

/-- C18 (amended) on a network that is down, from the fresh page: among
calls that raise the counter by at most 1 per suspension, as the overlapping
failing call does, the waits add up to at most 15000 ms. -/
theorem sharedCounter_backoff_sum_witness :
    (callWaitsShared allDown overlappingCall MAX_RETRY_ATTEMPTS FetchState.initial).sum
      ≤ RETRY_DELAY * (3 * 0 + 9 * 1 + 6) :=
  (sharedCounter_backoff_sum allDown overlappingCall FetchState.initial 1
    (fun _ _ c => ⟨by simp [overlappingCall], by simp [overlappingCall],
      by simp [overlappingCall]⟩)).1

/-- C21 (amended): for every natural number `retries` the call returns (the
function is total, by recursion on `retries`): a failed attempt with
`retries = r + 1` continues as the call with `r`. When every attempt fails,
the call makes exactly `retries + 1` requests and `retries` waits and then
rejects, whatever the other calls do to the counter meanwhile; when moreover
no attempt gets a response with `ok` true and no other call changes the
counter while this call is in flight, the shared counter `retryAttempts` ends
exactly `retries` higher than it started. -/
theorem sharedCounter_exhausts (net : Nat → Attempt) (others : Nat → Interference)
    (retries : Nat) (st : FetchState)
    (hfail : ∀ i, i ≤ retries → (net (st.requests + i)).failed = true) :
    (∃ m, (fetchWithRetryShared net others retries st).1 = .error m) ∧
    (fetchWithRetryShared net others retries st).2.requests = st.requests + retries + 1 ∧
    (callWaitsShared net others retries st).length = retries ∧
    (∀ r, retries = r + 1 →
      fetchWithRetryShared net others retries st =
        fetchWithRetryShared net others r
          ⟨(others st.requests).duringWait
              (counterFound (net st.requests) (others st.requests) st.retryAttempts + 1),
            st.requests + 1,
            st.waits ++ [RETRY_DELAY *
              (counterFound (net st.requests) (others st.requests) st.retryAttempts + 1)]⟩) ∧
    ((∀ i, i ≤ retries → (net (st.requests + i)).noOkResponse = true) →
      (∀ i, i ≤ retries → (others (st.requests + i)).Quiet) →
      (fetchWithRetryShared net others retries st).2.retryAttempts
        = st.retryAttempts + retries) := by
  obtain ⟨m, hm⟩ := failed_result _ (hfail retries (le_refl _))
  obtain ⟨h1, h2, h3⟩ := fetchWithRetry_all_failed net retries st hfail m hm
  obtain ⟨o1, o2, o3⟩ := fetchWithRetryShared_outcome net others retries st st rfl rfl
  refine ⟨⟨_, o1.trans h1⟩, o2.trans h2, ?_, ?_, ?_⟩
  · unfold callWaitsShared
    rw [List.length_drop, o3, h3]
    omega
  · intro r hr
    subst hr
    obtain ⟨m0, hm0⟩ := failed_result _ (hfail 0 (by omega))
    rw [Nat.add_zero] at hm0
    exact fetchWithRetryShared_retry net others r st m0 hm0
  · intro hno hq
    rw [fetchWithRetryShared_quiet net others retries st hq]
    exact fetchWithRetry_counter_no_response net retries st hno

/-- C21 (amended): on a network that is down, with 5 retries and the counter
at 2, the call makes 6 requests also while another failing call overlaps it;
with no other call in flight the counter ends at 7. -/
theorem sharedCounter_exhausts_witness :
    (fetchWithRetryShared allDown overlappingCall 5 ⟨2, 0, []⟩).2.requests = 0 + 5 + 1 ∧
    (fetchWithRetryShared allDown noInterference 5 ⟨2, 0, []⟩).2.retryAttempts = 2 + 5 :=
  ⟨(sharedCounter_exhausts allDown overlappingCall 5 ⟨2, 0, []⟩ (fun _ _ => rfl)).2.1,
   (sharedCounter_exhausts allDown noInterference 5 ⟨2, 0, []⟩ (fun _ _ => rfl)).2.2.2.2
     (fun _ _ => rfl) (fun _ _ => noInterference_quiet _)⟩

end K8Dashboard
